import Mathlib

/-!
Verification development for the newsletter-to-podcast pipeline.

Shallow embedding of the decision logic of the repository:
tts.py (sentence chunking), fetcher.py (content cascade, article fetch,
listing plaintext parsing), cleaner.py (HTML normalization), main.py
(episode assembly and state machine).  External collaborators (HTTP,
BeautifulSoup parsing, dateutil, hashlib, the TTS and LLM services) are
modelled as oracle parameters; all repository logic is translated
directly from the Python source.
-/

namespace N2P

/-! ## Basic character and string utilities (Python semantics) -/

/-- Python whitespace characters as stripped by str.strip (ASCII subset). -/
def isSpaceChar (c : Char) : Bool :=
  c = ' ' || c = '\t' || c = '\n' || c = '\x0d' || c = '\x0b' || c = '\x0c'

/-- Python str.strip on a character list: drop whitespace from both ends. -/
def stripChars (l : List Char) : List Char :=
  ((l.dropWhile isSpaceChar).reverse.dropWhile isSpaceChar).reverse

/-- Python str.rstrip on a character list. -/
def rstripChars (l : List Char) : List Char :=
  (l.reverse.dropWhile isSpaceChar).reverse

/-- Python str.strip for strings. -/
def pyStrip (s : String) : String := ⟨stripChars s.data⟩

/-- Python str.rstrip for strings. -/
def pyRStrip (s : String) : String := ⟨rstripChars s.data⟩

/-- Lowercase every character (Python str.lower, ASCII behaviour). -/
def lowerChars (l : List Char) : List Char := l.map Char.toLower

/-- Python str.splitlines restricted to the line breaks the repo feeds it:
LF, CR and CRLF.  Returns the list of lines without the terminators. -/
def splitLinesAux : List Char → List Char → List (List Char)
  | [], cur => if cur.isEmpty then [] else [cur.reverse]
  | '\n' :: rest, cur => cur.reverse :: splitLinesAux rest []
  | '\x0d' :: '\n' :: rest, cur => cur.reverse :: splitLinesAux rest []
  | '\x0d' :: rest, cur => cur.reverse :: splitLinesAux rest []
  | c :: rest, cur => splitLinesAux rest (c :: cur)

/-- Python str.splitlines for strings. -/
def pySplitLines (s : String) : List String :=
  (splitLinesAux s.data []).map fun l => ⟨l⟩

/-- Membership test for a substring (Python `pat in text`). -/
def hasSub (pat : List Char) : List Char → Bool
  | [] => pat.isEmpty
  | c :: rest => pat.isPrefixOf (c :: rest) || hasSub pat rest

/-- Python `pat in text` for strings. -/
def containsSub (text pat : String) : Bool := hasSub pat.data text.data

lemma stripChars_length_le (l : List Char) : (stripChars l).length ≤ l.length := by
  unfold stripChars
  calc ((l.dropWhile isSpaceChar).reverse.dropWhile isSpaceChar).reverse.length
      = ((l.dropWhile isSpaceChar).reverse.dropWhile isSpaceChar).length := by
        simp
    _ ≤ (l.dropWhile isSpaceChar).reverse.length :=
        (List.dropWhile_sublist _).length_le
    _ = (l.dropWhile isSpaceChar).length := by simp
    _ ≤ l.length := (List.dropWhile_sublist _).length_le

/-- Word characters for the regex word boundaries used by the re
patterns of the repository (ASCII behaviour of the re module). -/
def isWordChar (c : Char) : Bool := c.isAlphanum || c = '_'

/-- Remove every non-overlapping occurrence of a nonempty pattern
(Python str.replace with an empty replacement).  The fuel argument only
bounds the recursion; it never runs out when it starts at the length of
the list. -/
def removeSubFuel (pat : List Char) : Nat → List Char → List Char
  | 0, l => l
  | _ + 1, [] => []
  | fuel + 1, c :: rest =>
    if ¬pat.isEmpty ∧ pat.isPrefixOf (c :: rest) then
      removeSubFuel pat fuel ((c :: rest).drop pat.length)
    else c :: removeSubFuel pat fuel rest

/-- Python str.replace(pat, "") for every occurrence. -/
def removeSub (pat : List Char) (l : List Char) : List Char :=
  removeSubFuel pat l.length l

/-- Word-boundary, case-insensitive search used for the \b-anchored
re.IGNORECASE searches of cleaner.py and main.py.  The pattern is given lowercased. -/
def prefixCI (pat l : List Char) : Bool :=
  (l.take pat.length).map Char.toLower == pat

/-- Right word boundary after a match of the given length. -/
def boundaryAfter (pat l : List Char) : Bool :=
  match l.drop pat.length with
  | [] => true
  | d :: _ => !isWordChar d

def containsWordCIAux (pat : List Char) : Option Char → List Char → Bool
  | _, [] => false
  | prev, c :: rest =>
    ((match prev with | none => true | some p => !isWordChar p) &&
      prefixCI pat (c :: rest) && boundaryAfter pat (c :: rest)) ||
    containsWordCIAux pat (some c) rest

/-- Case-insensitive whole-word containment. -/
def containsWordCI (text : String) (pat : String) : Bool :=
  containsWordCIAux pat.data none text.data

/-! ## tts.py — sentence splitting and chunking (split_into_chunks) -/

namespace Tts

/-- Sentence-terminal characters from tts.py line 32: the string
".!?。！？\n" used by split_into_chunks. -/
def isTerminator (c : Char) : Bool :=
  c = '.' || c = '!' || c = '?' || c = '。' || c = '！' || c = '？' || c = '\n'

/-- The sentence-accumulation loop of split_into_chunks (tts.py 29-36):
walk the text, closing a stripped sentence after each terminator, and
append the stripped remainder when characters are left over. -/
def sentencesAux : List Char → List Char → List (List Char)
  | [], cur => if cur.isEmpty then [] else [stripChars cur.reverse]
  | c :: rest, cur =>
    if isTerminator c then
      stripChars (cur.reverse ++ [c]) :: sentencesAux rest []
    else
      sentencesAux rest (c :: cur)

/-- The sentence list split_into_chunks builds from the input text. -/
def pySentences (text : List Char) : List (List Char) := sentencesAux text []

/-- The greedy packing loop of split_into_chunks (tts.py 38-50): skip
empty sentences, merge a sentence into the buffer when the combined
length fits, otherwise flush the buffer and start a new one. -/
def packAux (maxLen : Nat) : List (List Char) → List Char → List (List Char)
  | [], buf => if buf.isEmpty then [] else [buf]
  | s :: rest, buf =>
    if s.isEmpty then packAux maxLen rest buf
    else if buf.length + 1 + s.length ≤ maxLen then
      packAux maxLen rest (stripChars (buf ++ ' ' :: s))
    else if buf.isEmpty then packAux maxLen rest s
    else buf :: packAux maxLen rest s

/-- split_into_chunks (tts.py 27-53): sentence split, greedy packing,
and the last-resort truncation when no chunk was produced. -/
def split_into_chunks (text : List Char) (maxLen : Nat) : List (List Char) :=
  let chunks := packAux maxLen (pySentences text) []
  if chunks.isEmpty then [text.take maxLen] else chunks

lemma packAux_mem_bound (maxLen : Nat) (S : List (List Char)) :
    ∀ (ss : List (List Char)) (buf : List Char),
      (∀ s ∈ ss, s ∈ S) →
      (buf.length ≤ maxLen ∨ buf ∈ S) →
      ∀ c ∈ packAux maxLen ss buf, c.length ≤ maxLen ∨ c ∈ S := by
  intro ss
  induction ss with
  | nil =>
    intro buf _ hbuf c hc
    unfold packAux at hc
    by_cases h : buf.isEmpty
    · simp [h] at hc
    · simp [h] at hc
      subst hc
      exact hbuf
  | cons s rest ih =>
    intro buf hss hbuf c hc
    unfold packAux at hc
    by_cases hse : s.isEmpty
    · simp only [hse, if_true] at hc
      exact ih buf (fun t ht => hss t (List.mem_cons_of_mem _ ht)) hbuf c hc
    · rw [Bool.not_eq_true] at hse
      simp only [hse, Bool.false_eq_true, if_false] at hc
      by_cases hfit : buf.length + 1 + s.length ≤ maxLen
      · simp only [hfit, if_true] at hc
        refine ih _ (fun t ht => hss t (List.mem_cons_of_mem _ ht)) ?_ c hc
        left
        calc (stripChars (buf ++ ' ' :: s)).length
            ≤ (buf ++ ' ' :: s).length := stripChars_length_le _
          _ = buf.length + 1 + s.length := by simp [List.length_append]; omega
          _ ≤ maxLen := hfit
      · rw [if_neg hfit] at hc
        have hsS : s ∈ S := hss s (List.mem_cons_self _ _)
        by_cases hbe : buf.isEmpty
        · simp only [hbe, if_true] at hc
          exact ih s (fun t ht => hss t (List.mem_cons_of_mem _ ht)) (Or.inr hsS) c hc
        · rw [Bool.not_eq_true] at hbe
          simp only [hbe, Bool.false_eq_true, if_false] at hc
          rw [List.mem_cons] at hc
          cases hc with
          | inl hcb =>
            subst hcb
            exact hbuf
          | inr hc =>
            exact ih s (fun t ht => hss t (List.mem_cons_of_mem _ ht)) (Or.inr hsS) c hc

end Tts

/-- C7: every chunk returned by split_into_chunks has length at most the
configured maximum, unless it is a single sentence of the input that
itself exceeds the maximum.  Sentences are the units produced by the
sentence-splitting pass, so an oversized chunk is never a fragment cut
out of a sentence: it is one whole sentence (the last-resort truncation
`text[:max_len]` is itself within the maximum). -/
theorem claim_C7_chunk_length_invariant (text : List Char) (maxLen : Nat) :
    ∀ c ∈ Tts.split_into_chunks text maxLen,
      c.length ≤ maxLen ∨ (c ∈ Tts.pySentences text ∧ maxLen < c.length) := by
  intro c hc
  unfold Tts.split_into_chunks at hc
  by_cases hemp : (Tts.packAux maxLen (Tts.pySentences text) []).isEmpty
  · simp only [hemp, if_true, List.mem_singleton] at hc
    subst hc
    left
    simp [List.length_take_le maxLen text]
  · rw [Bool.not_eq_true] at hemp
    simp only [hemp, Bool.false_eq_true, if_false] at hc
    have h := Tts.packAux_mem_bound maxLen (Tts.pySentences text)
      (Tts.pySentences text) [] (fun _ ht => ht) (Or.inl (Nat.zero_le _)) c hc
    cases h with
    | inl hle => exact Or.inl hle
    | inr hmem =>
      by_cases hlen : c.length ≤ maxLen
      · exact Or.inl hlen
      · exact Or.inr ⟨hmem, Nat.lt_of_not_le hlen⟩

/-- Witness for C7 at a concrete input: with a 5-character limit the
chunk list of "Hi there. Bye." contains the 9-character chunk
"Hi there.", and the invariant classifies it as a whole oversized
sentence. -/
theorem claim_C7_witness :
    "Hi there.".data ∈ Tts.split_into_chunks "Hi there. Bye.".data 5 ∧
      ("Hi there.".data.length ≤ 5 ∨
        ("Hi there.".data ∈ Tts.pySentences "Hi there. Bye.".data ∧
          5 < "Hi there.".data.length)) :=
  ⟨by decide, claim_C7_chunk_length_invariant "Hi there. Bye.".data 5
    "Hi there.".data (by decide)⟩

/-! ## fetcher.py — main-content extraction cascade (extract_main_html) -/

namespace Fetcher

/-- Results of the external extraction libraries consulted by
extract_main_html (fetcher.py 518-606).  Each field is what the library
returned for the page, with `none` for an exception or a missing result:
trafilatura.extract, readability Document.summary together with its
flattened text, newspaper3k article text, the first typical article
container (node markup and text length), and the largest text block
(node markup and text length). -/
structure ExtractStages where
  trafilatura : Option String
  readability : Option (String × String)
  newspaper : Option String
  container : Option (String × Nat)
  largest : Option (String × Nat)
deriving DecidableEq

/-- Paragraph-per-element wrapping used throughout fetcher.py:
"".join(f"&lt;p&gt;{p}&lt;/p&gt;" for p in paras). -/
def wrapParas (ps : List String) : String :=
  String.join (ps.map fun p => "<p>" ++ p ++ "</p>")

/-- The plaintext test of fetcher.py 520: page_html truthy and no "&lt;"
within the first 1000 characters. -/
def isPlainTextPage (page : String) : Bool :=
  page ≠ "" && !(page.data.take 1000).contains '<'

/-- The paragraph-grouping loop of fetcher.py 521-531: strip each line,
join runs of nonempty lines with single spaces. -/
def groupJoinSpace : List String → List String → List String
  | [], buf => if buf.isEmpty then [] else [" ".intercalate buf.reverse]
  | ln :: rest, buf =>
    if ln ≠ "" then groupJoinSpace rest (ln :: buf)
    else if buf.isEmpty then groupJoinSpace rest buf
    else " ".intercalate buf.reverse :: groupJoinSpace rest []

/-- Paragraphs recovered from a plaintext page (fetcher.py 521-531). -/
def plaintextParas (page : String) : List String :=
  groupJoinSpace ((pySplitLines page).map pyStrip) []

/-- Python str.split("\n"): split on every single newline, keeping
empty pieces. -/
def splitNlAux : List Char → List Char → List (List Char)
  | [], cur => [cur.reverse]
  | '\n' :: rest, cur => cur.reverse :: splitNlAux rest []
  | c :: rest, cur => splitNlAux rest (c :: cur)

/-- Python str.split("\n") for strings. -/
def splitNl (s : String) : List String :=
  (splitNlAux s.data []).map fun l => ⟨l⟩

/-- Stage (e2) of the cascade, fetcher.py 597-606: the largest text
block, accepted when its text length exceeds 120. -/
def stageLargest (st : ExtractStages) : Option String × Option String :=
  match st.largest with
  | some (s, n) => if 120 < n then (some s, some "heuristic") else (none, none)
  | none => (none, none)

/-- Stage (e1) of the cascade, fetcher.py 584-594: the first typical
article container, accepted when its text length exceeds 120. -/
def stageContainer (st : ExtractStages) : Option String × Option String :=
  match st.container with
  | some (s, n) => if 120 < n then (some s, some "heuristic") else stageLargest st
  | none => stageLargest st

/-- Stage (d) of the cascade, fetcher.py 560-575: newspaper3k text,
accepted when truthy and longer than 200 characters. -/
def stageNewspaper (st : ExtractStages) : Option String × Option String :=
  match st.newspaper with
  | some txt =>
    if txt ≠ "" ∧ 200 < txt.length then
      (some (wrapParas (((splitNl txt).map pyStrip).filter (· ≠ ""))),
        some "newspaper3k")
    else stageContainer st
  | none => stageContainer st

/-- Stage (c) of the cascade, fetcher.py 551-558: the readability
summary, accepted when truthy and its flattened text is longer than 200
characters. -/
def stageReadability (st : ExtractStages) : Option String × Option String :=
  match st.readability with
  | some (summary, flat) =>
    if summary ≠ "" ∧ 200 < flat.length then (some summary, some "readability")
    else stageNewspaper st
  | none => stageNewspaper st

/-- Stage (b) of the cascade, fetcher.py 535-549: trafilatura text,
accepted when truthy and longer than 200 characters. -/
def stageTrafilatura (st : ExtractStages) : Option String × Option String :=
  match st.trafilatura with
  | some txt =>
    if txt ≠ "" ∧ 200 < txt.length then
      (some (wrapParas (((splitNl txt).map pyStrip).filter (· ≠ ""))),
        some "trafilatura")
    else stageReadability st
  | none => stageReadability st

/-- extract_main_html (fetcher.py 518-606): plaintext wrap first, then
trafilatura, readability, newspaper3k and the hand-rolled heuristic. -/
def extract_main_html (page : String) (st : ExtractStages) :
    Option String × Option String :=
  if isPlainTextPage page then
    let paras := plaintextParas page
    if ¬paras.isEmpty then (some (wrapParas paras), some "plaintext")
    else stageTrafilatura st
  else stageTrafilatura st

/-! ## fetcher.py — article fetch with fallbacks (fetch_article_page) -/

/-- The block/short signals of _looks_blocked_or_too_short
(fetcher.py 497-504). -/
def blockSignals : List String :=
  ["verify you are human",
   "needs to review the security of your connection",
   "access denied",
   "forbidden",
   "captcha",
   "target url returned error"]

/-- _looks_blocked_or_too_short (fetcher.py 489-507): empty text, a
stripped length under 200, or a known block signal in the lowercased
text. -/
def looks_blocked_or_too_short (text : String) : Bool :=
  if text = "" then true
  else
    let t := pyStrip text
    if t.length < 200 then true
    else
      let lowered : String := ⟨lowerChars t.data⟩
      blockSignals.any fun s => containsSub lowered s

/-- External outcomes seen by fetch_article_page (fetcher.py 420-458):
the direct GET (status and body, `none` for a network exception), the
availability of the Diffbot client, the Diffbot result (`none` for an
exception or a missing result), and the r.jina.ai proxy result as
returned by fetch_via_jina. -/
structure FetchEnv where
  direct : Option (Nat × String)
  diffbotOn : Bool
  diffbot : Option String
  jina : Option String
deriving DecidableEq

/-- The Diffbot fallback step (fetcher.py 429-436 and 445-452): used
only when the client is available and the result strips to more than
200 characters. -/
def diffbotFallback (env : FetchEnv) : Option String :=
  if env.diffbotOn then
    match env.diffbot with
    | some via => if via ≠ "" ∧ 200 < (pyStrip via).length then some via else none
    | none => none
  else none

/-- The r.jina.ai fallback step (fetcher.py 437-441 and 453-457): used
whenever fetch_via_jina returned a truthy string. -/
def jinaFallback (env : FetchEnv) : Option String :=
  match env.jina with
  | some alt => if alt ≠ "" then some alt else none
  | none => none

/-- The Diffbot-then-jina chain fetch_article_page runs on a non-200
status, an empty body, or a network exception. -/
def fallbackChain (env : FetchEnv) : Option String :=
  match diffbotFallback env with
  | some v => some v
  | none => jinaFallback env

/-- fetch_article_page (fetcher.py 420-458), network part: a 200
response with a nonempty body is returned directly; every other outcome
runs the fallback chain. -/
def fetch_article_page (env : FetchEnv) : Option String :=
  match env.direct with
  | some (status, text) =>
    if status = 200 ∧ text ≠ "" then some text else fallbackChain env
  | none => fallbackChain env

/-! ## fetcher.py — listing plaintext issue parsing
(extract_issue_from_listing_plaintext) -/

/-- The month-name alternatives of the date pattern in fetcher.py
162-165, in the order the regex tries them. -/
def monthNames : List String :=
  ["January", "February", "March", "April", "May", "June", "July",
   "August", "September", "October", "November", "December"]

/-- Match one-or-more whitespace characters greedily. -/
def takeSpaces1 (cs : List Char) : Option (List Char × List Char) :=
  let sp := cs.takeWhile isSpaceChar
  if sp.isEmpty then none else some (sp, cs.drop sp.length)

/-- Match the day-and-comma part of the date pattern: one or two digits
directly followed by a comma, with the regex backtracking of the greedy
two-digit attempt. -/
def matchDayComma (cs : List Char) : Option (List Char × List Char) :=
  match cs with
  | d1 :: c2 :: rest2 =>
    if d1.isDigit then
      if c2.isDigit then
        match rest2 with
        | ',' :: rest3 => some ([d1, c2, ','], rest3)
        | _ => none
      else if c2 = ',' then some ([d1, ','], rest2)
      else none
    else none
  | _ => none

/-- Match the year part 20xx of the date pattern, with the closing word
boundary. -/
def matchYear (cs : List Char) : Option (List Char) :=
  match cs with
  | '2' :: '0' :: a :: b :: rest =>
    if a.isDigit && b.isDigit && (match rest with
        | [] => true
        | d :: _ => !isWordChar d) then
      some ['2', '0', a, b]
    else none
  | _ => none

/-- Try to match the full date pattern (MonthName day, 20xx) at the
start of the character list, returning the matched text. -/
def matchDateFrom (cs : List Char) : Option (List Char) :=
  monthNames.firstM fun m =>
    if m.data.isPrefixOf cs then
      match takeSpaces1 (cs.drop m.data.length) with
      | some (sp1, r1) =>
        match matchDayComma r1 with
        | some (day, r2) =>
          match takeSpaces1 r2 with
          | some (sp2, r3) =>
            match matchYear r3 with
            | some yr => some (m.data ++ sp1 ++ day ++ sp2 ++ yr)
            | none => none
          | none => none
        | none => none
      | none => none
    else none

/-- Leftmost search of the date pattern with its leading word boundary
(fetcher.py 162-166). -/
def findDateAux (pat : Unit) (prev : Option Char) : List Char → Option (List Char)
  | [] => none
  | c :: rest =>
    if (match prev with | none => true | some p => ¬isWordChar p) then
      match matchDateFrom (c :: rest) with
      | some m => some m
      | none => findDateAux pat (some c) rest
    else findDateAux pat (some c) rest

/-- The issue date found in the listing text, as a string
(fetcher.py 162-166). -/
def findIssueDate (text : String) : Option String :=
  (findDateAux () none text.data).map fun l => ⟨l⟩

/-- The trailing-colon normalization of header titles (fetcher.py 178):
re.sub of a final colon with its surrounding whitespace. -/
def stripTrailingColon (t : List Char) : List Char :=
  let r := t.reverse.dropWhile isSpaceChar
  match r with
  | ':' :: r2 => (r2.dropWhile isSpaceChar).reverse
  | _ => t

/-- The Markdown-marker and colon cleanup applied to a numbered header
title (fetcher.py 176-178). -/
def headerTitleClean (t : List Char) : List Char :=
  stripTrailingColon (removeSub "`".data (removeSub "__".data (removeSub "**".data t)))

/-- The numbered-header regex of fetcher.py 171: a digit 1-5, an
optional dot, closing parenthesis or colon, whitespace, then a nonempty
title, matched against the stripped line.  Returns the number and the
raw title. -/
def parseHeaderLine (ln : String) : Option (Nat × List Char) :=
  match stripChars ln.data with
  | c :: rest =>
    if '1' ≤ c ∧ c ≤ '5' then
      let afterPunct : Option (List Char) :=
        match rest with
        | p :: r2 =>
          if (p == '.' || p == ')' || p == ':') &&
              (match r2 with | q :: _ => isSpaceChar q | [] => false) then
            some r2
          else if isSpaceChar p then some rest
          else none
        | [] => none
      match afterPunct with
      | some r =>
        let title := r.dropWhile isSpaceChar
        if title.isEmpty then none
        else some (c.toNat - '0'.toNat, stripChars title)
      | none => none
    else none
  | [] => none

/-- The numbered-header scan of fetcher.py 169-179: line index, section
number, and cleaned title for every line matching the header pattern. -/
def listingStarts (lines : List String) : List (Nat × Nat × String) :=
  lines.enum.filterMap fun p =>
    (parseHeaderLine p.2).map fun q => (p.1, q.1, (⟨headerTitleClean q.2⟩ : String))

/-- The selection loop of fetcher.py 185-192: keep headers unique by
number in order of appearance, stopping once five are kept. -/
def selectOrdered : List (Nat × Nat × String) → List Nat → Nat → List (Nat × Nat × String)
  | [], _, _ => []
  | t :: rest, seen, count =>
    if t.2.1 ∈ seen then
      if 5 ≤ count then [] else selectOrdered rest seen count
    else
      t :: (if 5 ≤ count + 1 then [] else selectOrdered rest (t.2.1 :: seen) (count + 1))

/-- Remove HTML tags the way re.sub(r"&lt;[^&gt;]+&gt;", "", p) does: a "&lt;",
at least one character other than "&gt;", then "&gt;". -/
def removeTagsFuel : Nat → List Char → List Char
  | 0, l => l
  | _ + 1, [] => []
  | fuel + 1, '<' :: rest =>
    match rest.findIdx? (· = '>') with
    | some i =>
      if 1 ≤ i then removeTagsFuel fuel (rest.drop (i + 1))
      else '<' :: removeTagsFuel fuel rest
    | none => '<' :: removeTagsFuel fuel rest
  | fuel + 1, c :: rest => c :: removeTagsFuel fuel rest

/-- Tag removal entry point, fuelled by the input length. -/
def removeTagsAux (cs : List Char) : List Char :=
  removeTagsFuel cs.length cs

/-- String form of the tag removal. -/
def removeTags (s : String) : String := ⟨removeTagsAux s.data⟩

/-- Split a joined block into paragraphs the way
re.split(r"\n\s*\n+", ...) behaves on rstripped lines: groups of
consecutive nonempty lines. -/
def groupNonempty : List String → List String → List (List String)
  | [], buf => if buf.isEmpty then [] else [buf.reverse]
  | ln :: rest, buf =>
    if ln ≠ "" then groupNonempty rest (ln :: buf)
    else if buf.isEmpty then groupNonempty rest buf
    else buf.reverse :: groupNonempty rest []

/-- Paragraph extraction used for the intro and section bodies
(fetcher.py 201 and 220): split on blank-line runs, strip, drop empty. -/
def paraBlocks (block : String) : List String :=
  ((groupNonempty (splitNl block) []).map
    (fun g => pyStrip ("\n".intercalate g))).filter (· ≠ "")

/-- Paragraph-per-element wrapping with tag removal (fetcher.py 203 and
221). -/
def wrapParasNoTags (ps : List String) : String :=
  String.join (ps.map fun p => "<p>" ++ removeTags p ++ "</p>")

/-- The section assembly loop of fetcher.py 209-222: each header yields
an h3 heading followed by the paragraphs of the lines up to the next
header. -/
def sectionParts (lines : List String) : List (Nat × Nat × String) → List String
  | [] => []
  | (startIdx, num, title) :: rest =>
    let endIdx := match rest with
      | (nextIdx, _, _) :: _ => nextIdx
      | [] => lines.length
    let body := pyStrip ("\n".intercalate ((lines.drop (startIdx + 1)).take (endIdx - (startIdx + 1))))
    let bodyHtml := wrapParasNoTags (paraBlocks body)
    ("<h3>" ++ toString num ++ ". " ++ title ++ "</h3>" ++ bodyHtml)
      :: sectionParts lines rest

/-- extract_issue_from_listing_plaintext (fetcher.py 154-230): parse a
newsletter listing plaintext into (title, author, published, html body),
requiring the numbered sections 1-4 to be present. -/
def extract_issue_from_listing_plaintext (text : String) :
    Option (String × String × String × String) :=
  let lines := (pySplitLines text).map pyRStrip
  let published := findIssueDate text
  let starts := listingStarts lines
  let haveNums := starts.map fun t => t.2.1
  if ¬(1 ∈ haveNums ∧ 2 ∈ haveNums ∧ 3 ∈ haveNums ∧ 4 ∈ haveNums) then none
  else
    let ordered := selectOrdered starts [] 0
    if ordered.isEmpty then none
    else
      let firstStart := (ordered.headD (0, 0, "")).1
      let introHtml :=
        if 0 < firstStart then
          wrapParasNoTags (paraBlocks (pyStrip ("\n".intercalate (lines.take firstStart))))
        else ""
      let parts := (if introHtml ≠ "" then [introHtml] else []) ++ sectionParts lines ordered
      let issueTitle := match published with
        | some p => "Axios AI Plus — " ++ p
        | none => "Axios AI Plus — Latest"
      some (issueTitle, "Axios", published.getD "", String.join parts)

/-! ## Gate predicates for the extraction cascade -/

/-- The plaintext stage applies: plaintext-looking page with at least
one nonempty paragraph (no length threshold in the code). -/
def plainGate (page : String) : Prop :=
  isPlainTextPage page = true ∧ plaintextParas page ≠ []

/-- The trafilatura stage accepts: truthy text longer than 200. -/
def trafGate (st : ExtractStages) : Prop :=
  ∃ t, st.trafilatura = some t ∧ t ≠ "" ∧ 200 < t.length

/-- The readability stage accepts: truthy summary whose flattened text
is longer than 200. -/
def readGate (st : ExtractStages) : Prop :=
  ∃ s f, st.readability = some (s, f) ∧ s ≠ "" ∧ 200 < f.length

/-- The newspaper3k stage accepts: truthy text longer than 200. -/
def newsGate (st : ExtractStages) : Prop :=
  ∃ t, st.newspaper = some t ∧ t ≠ "" ∧ 200 < t.length

/-- A typical article container with text length over 120. -/
def contGate (st : ExtractStages) : Prop :=
  ∃ s n, st.container = some (s, n) ∧ 120 < n

/-- A largest text block with text length over 120. -/
def largGate (st : ExtractStages) : Prop :=
  ∃ s n, st.largest = some (s, n) ∧ 120 < n

/-- The hand-rolled heuristic accepts: either sub-stage over 120. -/
def heurGate (st : ExtractStages) : Prop := contGate st ∨ largGate st

lemma stageLargest_snd (st : ExtractStages) :
    ((stageLargest st).2 = some "heuristic" ↔ largGate st) ∧
    ((stageLargest st).2 = none ↔ ¬largGate st) := by
  unfold stageLargest largGate
  cases hl : st.largest with
  | none => simp
  | some p =>
    obtain ⟨s, n⟩ := p
    by_cases hn : 120 < n
    · simp [hn]
      exact ⟨s, n, ⟨rfl, rfl⟩, hn⟩
    · simp [hn]
      omega

lemma stageContainer_snd (st : ExtractStages) :
    ((stageContainer st).2 = some "heuristic" ↔ heurGate st) ∧
    ((stageContainer st).2 = none ↔ ¬heurGate st) := by
  have hL := stageLargest_snd st
  unfold stageContainer heurGate contGate
  cases hc : st.container with
  | none =>
    simp only [hc]
    constructor
    · rw [hL.1]
      constructor
      · exact fun h => Or.inr h
      · intro h
        rcases h with h | h
        · obtain ⟨s, n, hsn, _⟩ := h
          simp at hsn
        · exact h
    · rw [hL.2]
      constructor
      · intro h hcon
        rcases hcon with hcon | hcon
        · obtain ⟨s, n, hsn, _⟩ := hcon
          simp at hsn
        · exact h hcon
      · intro h
        exact fun hlg => h (Or.inr hlg)
  | some p =>
    obtain ⟨s, n⟩ := p
    by_cases hn : 120 < n
    · simp [hc, hn]
      exact Or.inl ⟨s, n, ⟨rfl, rfl⟩, hn⟩
    · simp only [hc, hn, if_false]
      constructor
      · rw [hL.1]
        constructor
        · exact fun h => Or.inr h
        · intro h
          rcases h with h | h
          · obtain ⟨s2, n2, hsn, hn2⟩ := h
            rw [Option.some_inj] at hsn
            cases hsn
            exact absurd hn2 hn
          · exact h
      · rw [hL.2]
        constructor
        · intro h hcon
          rcases hcon with hcon | hcon
          · obtain ⟨s2, n2, hsn, hn2⟩ := hcon
            rw [Option.some_inj] at hsn
            cases hsn
            exact absurd hn2 hn
          · exact h hcon
        · intro h
          exact fun hlg => h (Or.inr hlg)

lemma stageNewspaper_snd (st : ExtractStages) :
    ((stageNewspaper st).2 = some "newspaper3k" ↔ newsGate st) ∧
    ((stageNewspaper st).2 = some "heuristic" ↔ ¬newsGate st ∧ heurGate st) ∧
    ((stageNewspaper st).2 = none ↔ ¬newsGate st ∧ ¬heurGate st) := by
  have hC := stageContainer_snd st
  unfold stageNewspaper newsGate
  cases hn : st.newspaper with
  | none =>
    simp only [hn]
    refine ⟨?_, ?_, ?_⟩
    · simp [hC.1.symm]
      intro h
      rw [h] at hC
      simp at hC
    · simp [hC.1]
    · simp [hC.2]
  | some t =>
    by_cases ht : t ≠ "" ∧ 200 < t.length
    · simp [hn, ht]
    · simp only [hn, ht, if_false]
      refine ⟨?_, ?_, ?_⟩
      · constructor
        · intro h
          rw [h] at hC
          simp at hC
        · intro h
          obtain ⟨t2, ht2, hprops⟩ := h
          rw [Option.some_inj] at ht2
          cases ht2
          exact absurd hprops ht
      · rw [hC.1]
        constructor
        · intro h
          refine ⟨?_, h⟩
          intro hcon
          obtain ⟨t2, ht2, hprops⟩ := hcon
          rw [Option.some_inj] at ht2
          cases ht2
          exact absurd hprops ht
        · exact fun h => h.2
      · rw [hC.2]
        constructor
        · intro h
          refine ⟨?_, h⟩
          intro hcon
          obtain ⟨t2, ht2, hprops⟩ := hcon
          rw [Option.some_inj] at ht2
          cases ht2
          exact absurd hprops ht
        · exact fun h => h.2

lemma stageReadability_snd (st : ExtractStages) :
    ((stageReadability st).2 = some "readability" ↔ readGate st) ∧
    ((stageReadability st).2 = some "newspaper3k" ↔ ¬readGate st ∧ newsGate st) ∧
    ((stageReadability st).2 = some "heuristic" ↔ ¬readGate st ∧ ¬newsGate st ∧ heurGate st) ∧
    ((stageReadability st).2 = none ↔ ¬readGate st ∧ ¬newsGate st ∧ ¬heurGate st) := by
  have hN := stageNewspaper_snd st
  unfold stageReadability readGate
  cases hr : st.readability with
  | none =>
    simp only [hr]
    refine ⟨?_, ?_, ?_, ?_⟩
    · constructor
      · intro h
        rw [h] at hN
        simp at hN
        exact absurd (hN.2.2 hN.1) (hN.2.1 hN.1)
      · intro h
        obtain ⟨s, f, hsf, _⟩ := h
        simp at hsf
    · rw [hN.1]
      constructor
      · intro h
        refine ⟨?_, h⟩
        intro hcon
        obtain ⟨s, f, hsf, _⟩ := hcon
        simp at hsf
      · exact fun h => h.2
    · rw [hN.2.1]
      constructor
      · intro h
        refine ⟨?_, h⟩
        intro hcon
        obtain ⟨s, f, hsf, _⟩ := hcon
        simp at hsf
      · exact fun h => h.2
    · rw [hN.2.2]
      constructor
      · intro h
        refine ⟨?_, h⟩
        intro hcon
        obtain ⟨s, f, hsf, _⟩ := hcon
        simp at hsf
      · exact fun h => h.2
  | some p =>
    obtain ⟨summary, flat⟩ := p
    by_cases hs : summary ≠ "" ∧ 200 < flat.length
    · simp [hr, hs]
      exact ⟨summary, flat, ⟨rfl, rfl⟩, hs.1, hs.2⟩
    · simp only [hr, hs, if_false]
      have hnotg : ¬∃ s f, (summary, flat) = (s, f) ∧ s ≠ "" ∧ 200 < f.length := by
        intro hcon
        obtain ⟨s, f, hsf, hps⟩ := hcon
        rw [Prod.mk.injEq] at hsf
        obtain ⟨h1, h2⟩ := hsf
        subst h1
        subst h2
        exact hs hps
      have hnotg2 : ¬∃ s f, some (summary, flat) = some (s, f) ∧ s ≠ "" ∧ 200 < f.length := by
        intro hcon
        obtain ⟨s, f, hsf, hps⟩ := hcon
        rw [Option.some_inj] at hsf
        exact hnotg ⟨s, f, hsf, hps⟩
      refine ⟨?_, ?_, ?_, ?_⟩
      · constructor
        · intro h
          rw [h] at hN
          simp at hN
          exact absurd (hN.2.2 hN.1) (hN.2.1 hN.1)
        · intro h
          exact absurd h hnotg2
      · rw [hN.1]
        exact ⟨fun h => ⟨hnotg2, h⟩, fun h => h.2⟩
      · rw [hN.2.1]
        exact ⟨fun h => ⟨hnotg2, h⟩, fun h => h.2⟩
      · rw [hN.2.2]
        exact ⟨fun h => ⟨hnotg2, h⟩, fun h => h.2⟩

lemma stageTrafilatura_snd (st : ExtractStages) :
    ((stageTrafilatura st).2 = some "trafilatura" ↔ trafGate st) ∧
    ((stageTrafilatura st).2 = some "readability" ↔ ¬trafGate st ∧ readGate st) ∧
    ((stageTrafilatura st).2 = some "newspaper3k" ↔ ¬trafGate st ∧ ¬readGate st ∧ newsGate st) ∧
    ((stageTrafilatura st).2 = some "heuristic" ↔
      ¬trafGate st ∧ ¬readGate st ∧ ¬newsGate st ∧ heurGate st) ∧
    ((stageTrafilatura st).2 = none ↔
      ¬trafGate st ∧ ¬readGate st ∧ ¬newsGate st ∧ ¬heurGate st) := by
  have hR := stageReadability_snd st
  unfold stageTrafilatura trafGate
  cases ht : st.trafilatura with
  | none =>
    simp only [ht]
    have hng : ¬∃ t, (none : Option String) = some t ∧ t ≠ "" ∧ 200 < t.length := by
      intro hcon
      obtain ⟨t, hteq, _⟩ := hcon
      simp at hteq
    refine ⟨?_, ?_, ?_, ?_, ?_⟩
    · constructor
      · intro h
        rw [h] at hR
        simp at hR
        have h1 := hR.1
        have h2 := hR.2.1 h1
        exact absurd (hR.2.2.2 h1 h2) (hR.2.2.1 h1 h2)
      · intro h
        exact absurd h hng
    · rw [hR.1]
      exact ⟨fun h => ⟨hng, h⟩, fun h => h.2⟩
    · rw [hR.2.1]
      exact ⟨fun h => ⟨hng, h⟩, fun h => h.2⟩
    · rw [hR.2.2.1]
      exact ⟨fun h => ⟨hng, h⟩, fun h => h.2⟩
    · rw [hR.2.2.2]
      exact ⟨fun h => ⟨hng, h⟩, fun h => h.2⟩
  | some t =>
    by_cases hc : t ≠ "" ∧ 200 < t.length
    · simp [ht, hc]
    · simp only [ht, hc, if_false]
      have hng : ¬∃ t2, (some t : Option String) = some t2 ∧ t2 ≠ "" ∧ 200 < t2.length := by
        intro hcon
        obtain ⟨t2, hteq, hprops⟩ := hcon
        rw [Option.some_inj] at hteq
        subst hteq
        exact hc hprops
      refine ⟨?_, ?_, ?_, ?_, ?_⟩
      · constructor
        · intro h
          rw [h] at hR
          simp at hR
          have h1 := hR.1
          have h2 := hR.2.1 h1
          exact absurd (hR.2.2.2 h1 h2) (hR.2.2.1 h1 h2)
        · intro h
          exact absurd h hng
      · rw [hR.1]
        exact ⟨fun h => ⟨hng, h⟩, fun h => h.2⟩
      · rw [hR.2.1]
        exact ⟨fun h => ⟨hng, h⟩, fun h => h.2⟩
      · rw [hR.2.2.1]
        exact ⟨fun h => ⟨hng, h⟩, fun h => h.2⟩
      · rw [hR.2.2.2]
        exact ⟨fun h => ⟨hng, h⟩, fun h => h.2⟩

end Fetcher

/-- C5 counterexample: on the plaintext page "hi" the cascade returns
the plaintext stage result even though its extracted text has only 2
characters, refuting the claim that no stage result is returned when
its extracted text is 200 characters or shorter — and it does so even
while the trafilatura stage holds a 201-character text. -/
theorem claim_C5_counterexample :
    Fetcher.extract_main_html "hi"
        { trafilatura := some (String.mk (List.replicate 201 'x')),
          readability := none, newspaper := none,
          container := none, largest := none }
      = (some "<p>hi</p>", some "plaintext") ∧
    ¬200 < "hi".length := by
  exact ⟨rfl, by decide⟩

/-- C5 amended: the cascade tries plaintext wrap, trafilatura,
readability, newspaper3k and the heuristic in this fixed order and
stops at the first stage whose gate passes; however the plaintext stage
has no length threshold (any nonempty paragraph wins) and the heuristic
stage uses a 120-character threshold — only the trafilatura,
readability and newspaper3k stages use the 200-character threshold.
The returned source tag identifies exactly the first stage whose gate
holds. -/
theorem claim_C5_cascade_order_amended (page : String) (st : Fetcher.ExtractStages) :
    ((Fetcher.extract_main_html page st).2 = some "plaintext" ↔ Fetcher.plainGate page) ∧
    ((Fetcher.extract_main_html page st).2 = some "trafilatura" ↔
      ¬Fetcher.plainGate page ∧ Fetcher.trafGate st) ∧
    ((Fetcher.extract_main_html page st).2 = some "readability" ↔
      ¬Fetcher.plainGate page ∧ ¬Fetcher.trafGate st ∧ Fetcher.readGate st) ∧
    ((Fetcher.extract_main_html page st).2 = some "newspaper3k" ↔
      ¬Fetcher.plainGate page ∧ ¬Fetcher.trafGate st ∧ ¬Fetcher.readGate st ∧
        Fetcher.newsGate st) ∧
    ((Fetcher.extract_main_html page st).2 = some "heuristic" ↔
      ¬Fetcher.plainGate page ∧ ¬Fetcher.trafGate st ∧ ¬Fetcher.readGate st ∧
        ¬Fetcher.newsGate st ∧ Fetcher.heurGate st) ∧
    ((Fetcher.extract_main_html page st).2 = none ↔
      ¬Fetcher.plainGate page ∧ ¬Fetcher.trafGate st ∧ ¬Fetcher.readGate st ∧
        ¬Fetcher.newsGate st ∧ ¬Fetcher.heurGate st) := by
  have hT := Fetcher.stageTrafilatura_snd st
  have hnil : ∀ l : List String, l.isEmpty = true → l = [] := by
    intro l hl
    cases l with
    | nil => rfl
    | cons a t => simp at hl
  have hsplit1 : Fetcher.plainGate page →
      Fetcher.extract_main_html page st =
        (some (Fetcher.wrapParas (Fetcher.plaintextParas page)), some "plaintext") := by
    intro hg
    unfold Fetcher.extract_main_html
    have hpp : ¬(Fetcher.plaintextParas page).isEmpty = true := by
      intro hcon
      exact hg.2 (hnil _ hcon)
    simp [hg.1, hpp]
  have hsplit2 : ¬Fetcher.plainGate page →
      Fetcher.extract_main_html page st = Fetcher.stageTrafilatura st := by
    intro hg
    unfold Fetcher.extract_main_html
    by_cases hpt : Fetcher.isPlainTextPage page
    · by_cases hpp : (Fetcher.plaintextParas page).isEmpty
      · simp [hpt, hpp]
      · exfalso
        apply hg
        refine ⟨hpt, fun h => ?_⟩
        rw [Bool.not_eq_true] at hpp
        rw [h] at hpp
        simp at hpp
    · rw [Bool.not_eq_true] at hpt
      simp [hpt]
  by_cases hg : Fetcher.plainGate page
  · rw [hsplit1 hg]
    refine ⟨by simp [hg], by simp [hg], by simp [hg], by simp [hg], by simp [hg], by simp [hg]⟩
  · rw [hsplit2 hg]
    refine ⟨?_, ?_, ?_, ?_, ?_, ?_⟩
    · constructor
      · intro h
        rw [h] at hT
        simp at hT
        have h1 := hT.1
        have h2 := hT.2.1 h1
        have h3 := hT.2.2.1 h1 h2
        exact absurd (hT.2.2.2.2 h1 h2 h3) (hT.2.2.2.1 h1 h2 h3)
      · intro h
        exact absurd h hg
    · rw [hT.1]
      exact ⟨fun h => ⟨hg, h⟩, fun h => h.2⟩
    · rw [hT.2.1]
      exact ⟨fun h => ⟨hg, h.1, h.2⟩, fun h => ⟨h.2.1, h.2.2⟩⟩
    · rw [hT.2.2.1]
      exact ⟨fun h => ⟨hg, h.1, h.2.1, h.2.2⟩, fun h => ⟨h.2.1, h.2.2.1, h.2.2.2⟩⟩
    · rw [hT.2.2.2.1]
      exact ⟨fun h => ⟨hg, h.1, h.2.1, h.2.2.1, h.2.2.2⟩,
        fun h => ⟨h.2.1, h.2.2.1, h.2.2.2.1, h.2.2.2.2⟩⟩
    · rw [hT.2.2.2.2]
      exact ⟨fun h => ⟨hg, h.1, h.2.1, h.2.2.1, h.2.2.2⟩,
        fun h => ⟨h.2.1, h.2.2.1, h.2.2.2.1, h.2.2.2.2⟩⟩

set_option maxRecDepth 4000 in
/-- C6 counterexample: a direct 200 response whose body is the short
blocked text "Forbidden" is returned as-is, even though
_looks_blocked_or_too_short flags it and a useful 250-character Diffbot
result is available — the claimed blocked-or-short cascade never runs
(the helper is defined but never called). -/
theorem claim_C6_counterexample :
    Fetcher.fetch_article_page
        { direct := some (200, "Forbidden"), diffbotOn := true,
          diffbot := some (String.mk (List.replicate 250 'y')), jina := none }
      = some "Forbidden" ∧
    Fetcher.looks_blocked_or_too_short "Forbidden" = true ∧
    200 < (pyStrip (String.mk (List.replicate 250 'y'))).length := by
  refine ⟨rfl, by decide, by decide⟩

/-- C6 amended: fetch_article_page falls back to Diffbot and then to
the r.jina.ai proxy only when the direct request raised, returned a
non-200 status, or returned an empty body; a 200 response with a
nonempty body is returned unconditionally, with no blocked-or-short
check.  The Diffbot result is used only when the client is available
and the result strips to more than 200 characters; the jina result is
used whenever it is nonempty. -/
theorem claim_C6_fetch_cascade_amended (env : Fetcher.FetchEnv) :
    (∀ t, env.direct = some (200, t) → t ≠ "" →
      Fetcher.fetch_article_page env = some t) ∧
    ((∀ s t, env.direct = some (s, t) → ¬(s = 200 ∧ t ≠ "")) →
      Fetcher.fetch_article_page env = Fetcher.fallbackChain env) ∧
    (env.direct = none → Fetcher.fetch_article_page env = Fetcher.fallbackChain env) ∧
    (∀ v, Fetcher.diffbotFallback env = some v ↔
      env.diffbotOn = true ∧ env.diffbot = some v ∧ v ≠ "" ∧ 200 < (pyStrip v).length) ∧
    (∀ v, Fetcher.jinaFallback env = some v ↔ env.jina = some v ∧ v ≠ "") ∧
    (∀ v, Fetcher.diffbotFallback env = some v → Fetcher.fallbackChain env = some v) ∧
    (Fetcher.diffbotFallback env = none →
      Fetcher.fallbackChain env = Fetcher.jinaFallback env) := by
  obtain ⟨dir, don, db, jn⟩ := env
  have hdiff : ∀ v, Fetcher.diffbotFallback ⟨dir, don, db, jn⟩ = some v ↔
      don = true ∧ db = some v ∧ v ≠ "" ∧ 200 < (pyStrip v).length := by
    intro v
    cases don with
    | false => simp [Fetcher.diffbotFallback]
    | true =>
      cases db with
      | none => simp [Fetcher.diffbotFallback]
      | some w =>
        have hred : Fetcher.diffbotFallback ⟨dir, true, some w, jn⟩ =
            if w ≠ "" ∧ 200 < (pyStrip w).length then some w else none := rfl
        rw [hred]
        by_cases hw : w ≠ "" ∧ 200 < (pyStrip w).length
        · rw [if_pos hw]
          constructor
          · intro h
            rw [Option.some_inj] at h
            subst h
            exact ⟨rfl, rfl, hw.1, hw.2⟩
          · intro h
            rw [Option.some_inj.mp h.2.1]
        · rw [if_neg hw]
          constructor
          · intro h
            simp at h
          · intro h
            obtain ⟨-, hv, hprops⟩ := h
            rw [Option.some_inj] at hv
            subst hv
            exact absurd hprops hw
  have hjina : ∀ v, Fetcher.jinaFallback ⟨dir, don, db, jn⟩ = some v ↔
      jn = some v ∧ v ≠ "" := by
    intro v
    cases jn with
    | none => simp [Fetcher.jinaFallback]
    | some w =>
      have hred : Fetcher.jinaFallback ⟨dir, don, db, some w⟩ =
          if w ≠ "" then some w else none := rfl
      rw [hred]
      by_cases hw : w ≠ ""
      · rw [if_pos hw]
        constructor
        · intro h
          rw [Option.some_inj] at h
          subst h
          exact ⟨rfl, hw⟩
        · intro h
          rw [Option.some_inj.mp h.1]
      · rw [if_neg hw]
        constructor
        · intro h
          simp at h
        · intro h
          obtain ⟨hv, hne⟩ := h
          rw [Option.some_inj] at hv
          subst hv
          exact absurd hne hw
  refine ⟨?_, ?_, ?_, hdiff, hjina, ?_, ?_⟩
  · intro t hd ht
    simp only at hd
    subst hd
    have hred : Fetcher.fetch_article_page ⟨some (200, t), don, db, jn⟩ =
        if (200 : Nat) = 200 ∧ t ≠ "" then some t
        else Fetcher.fallbackChain ⟨some (200, t), don, db, jn⟩ := rfl
    rw [hred, if_pos ⟨rfl, ht⟩]
  · intro hno
    simp only at hno
    cases dir with
    | none => simp [Fetcher.fetch_article_page]
    | some p =>
      obtain ⟨status, text⟩ := p
      have h := hno status text rfl
      have hred : Fetcher.fetch_article_page ⟨some (status, text), don, db, jn⟩ =
          if status = 200 ∧ text ≠ "" then some text
          else Fetcher.fallbackChain ⟨some (status, text), don, db, jn⟩ := rfl
      rw [hred, if_neg h]
  · intro hd
    simp only at hd
    subst hd
    simp [Fetcher.fetch_article_page]
  · intro v h
    unfold Fetcher.fallbackChain
    rw [h]
  · intro h
    unfold Fetcher.fallbackChain
    rw [h]

/-- C10: listing-plaintext issue parsing succeeds only when the
numbered headers 1 through 4 are all present among the detected section
starts; the four-header listing parses into exactly those four sections
with no intro, and the two-header listing is rejected so the caller
falls back to generic extraction. -/
theorem claim_C10_listing_parse_sections :
    (∀ text : String,
      (Fetcher.extract_issue_from_listing_plaintext text).isSome →
        1 ∈ (Fetcher.listingStarts ((pySplitLines text).map pyRStrip)).map (fun t => t.2.1) ∧
        2 ∈ (Fetcher.listingStarts ((pySplitLines text).map pyRStrip)).map (fun t => t.2.1) ∧
        3 ∈ (Fetcher.listingStarts ((pySplitLines text).map pyRStrip)).map (fun t => t.2.1) ∧
        4 ∈ (Fetcher.listingStarts ((pySplitLines text).map pyRStrip)).map (fun t => t.2.1)) ∧
    Fetcher.extract_issue_from_listing_plaintext "1. A\n2. B\n3. C\n4. D"
      = some ("Axios AI Plus — Latest", "Axios", "",
          "<h3>1. A</h3><h3>2. B</h3><h3>3. C</h3><h3>4. D</h3>") ∧
    Fetcher.extract_issue_from_listing_plaintext "1. A\n2. B" = none := by
  refine ⟨?_, by decide, by decide⟩
  intro text hsome
  unfold Fetcher.extract_issue_from_listing_plaintext at hsome
  by_cases hnums :
      1 ∈ (Fetcher.listingStarts ((pySplitLines text).map pyRStrip)).map (fun t => t.2.1) ∧
      2 ∈ (Fetcher.listingStarts ((pySplitLines text).map pyRStrip)).map (fun t => t.2.1) ∧
      3 ∈ (Fetcher.listingStarts ((pySplitLines text).map pyRStrip)).map (fun t => t.2.1) ∧
      4 ∈ (Fetcher.listingStarts ((pySplitLines text).map pyRStrip)).map (fun t => t.2.1)
  · exact hnums
  · exfalso
    simp only [hnums, not_false_iff, if_true] at hsome
    simp at hsome

/-! ## cleaner.py — HTML normalization (clean_html_text) -/

namespace Cleaner

/-- A parsed HTML document node, standing in for a BeautifulSoup
element or string (the parser itself is an external collaborator). -/
inductive HNode where
  | el (tag : String) (children : List HNode)
  | txt (s : String)

mutual
/-- All string descendants of a node, in document order. -/
def nodeTexts : HNode → List String
  | .txt s => [s]
  | .el _ cs => nodeTextsL cs
def nodeTextsL : List HNode → List String
  | [] => []
  | n :: rest => nodeTexts n ++ nodeTextsL rest
end

/-- BeautifulSoup get_text(separator, strip=True): strip every string,
drop the empty ones, and join with the separator. -/
def getTextStrip (sep : String) (n : HNode) : String :=
  sep.intercalate (((nodeTexts n).map pyStrip).filter (· ≠ ""))

/-- get_text over the whole document (a node list). -/
def forestTextStrip (sep : String) (roots : List HNode) : String :=
  sep.intercalate (((nodeTextsL roots).map pyStrip).filter (· ≠ ""))

mutual
/-- Element.decompose driven by a predicate, applied top-down the way
the find_all loops of cleaner.py do. -/
def dropIf (p : HNode → Bool) : HNode → Option HNode
  | .txt s => some (.txt s)
  | .el tag cs =>
    if p (.el tag cs) then none else some (.el tag (dropIfL p cs))
def dropIfL (p : HNode → Bool) : List HNode → List HNode
  | [] => []
  | n :: rest =>
    match dropIf p n with
    | some m => m :: dropIfL p rest
    | none => dropIfL p rest
end

mutual
/-- Unwrap anchors to their visible text (cleaner.py 68-69):
a.replace_with(a.get_text(" ", strip=True)). -/
def unwrapLinks : HNode → HNode
  | .txt s => .txt s
  | .el tag cs =>
    if tag = "a" then .txt (getTextStrip " " (.el tag cs))
    else .el tag (unwrapLinksL cs)
def unwrapLinksL : List HNode → List HNode
  | [] => []
  | n :: rest => unwrapLinks n :: unwrapLinksL rest
end

mutual
/-- find_all for a tag list: matching elements in document order,
including nested matches (BeautifulSoup semantics). -/
def collectBlocks (tags : List String) : HNode → List HNode
  | .txt _ => []
  | .el t cs =>
    (if t ∈ tags then [HNode.el t cs] else []) ++ collectBlocksL tags cs
def collectBlocksL (tags : List String) : List HNode → List HNode
  | [] => []
  | n :: rest => collectBlocks tags n ++ collectBlocksL tags rest
end

/-- The non-textual tags removed first (cleaner.py 34-35). -/
def nonTextTags : List String :=
  ["img", "figure", "figcaption", "script", "style", "noscript"]

/-- The credit-line starter words of _is_credit_text (cleaner.py 43),
lowercased. -/
def creditStarters : List String :=
  ["photo", "photograph", "photography", "credit", "courtesy"]

/-- The wire-service names of _is_credit_text (cleaner.py 46),
lowercased; AP Photo is covered by the word AP itself. -/
def agencyWords : List String :=
  ["getty images", "ap", "reuters", "bloomberg", "afp", "wireimage", "usa today"]

/-- The credit co-occurrence words of _is_credit_text (cleaner.py 48),
lowercased. -/
def creditWords : List String :=
  ["photo", "photograph", "photography", "credit", "courtesy", "via"]

/-- The direct credit-line starter test: one of the starter words at
the start, then optional whitespace and a colon
(re.match of cleaner.py 43). -/
def creditStart (t : String) : Bool :=
  creditStarters.any fun w =>
    let low := lowerChars t.data
    w.data.isPrefixOf low &&
      (match (low.drop w.data.length).dropWhile isSpaceChar with
        | ':' :: _ => true
        | _ => false)

/-- _is_credit_text (cleaner.py 38-50). -/
def isCreditText (t : String) : Bool :=
  let t' := pyStrip t
  if t' = "" then false
  else if creditStart t' then true
  else if (agencyWords.any fun a => containsWordCI t' a) then
    creditWords.any fun w => containsWordCI t' w
  else false

/-- The credit-element predicate of the cleaner.py 52-58 loop: a p, div
or span whose flattened text is a credit line. -/
def isCreditEl : HNode → Bool
  | .el tag cs =>
    (tag = "p" || tag = "div" || tag = "span") &&
      (let t := getTextStrip " " (.el tag cs)
       t ≠ "" && isCreditText t)
  | .txt _ => false

/-- The non-text-element predicate of cleaner.py 34. -/
def isNonTextEl : HNode → Bool
  | .el tag _ => tag ∈ nonTextTags
  | .txt _ => false

/-- The ad-element predicate of cleaner.py 62-65: a p, div or section
whose lowercased flattened text contains any ad keyword
(case-insensitive substring). -/
def isAdEl (adKeywords : List String) : HNode → Bool
  | .el tag cs =>
    (tag = "p" || tag = "div" || tag = "section") &&
      (let t : String := ⟨lowerChars (getTextStrip " " (.el tag cs)).data⟩
       adKeywords.any fun k => containsSub t ⟨lowerChars k.data⟩)
  | .txt _ => false

/-! ### Per-paragraph cleaning (cleaner.py 83-154) -/

/-- The emoji codepoint ranges of EMOJI_PATTERN (cleaner.py 14-23). -/
def isEmojiChar (c : Char) : Bool :=
  let n := c.toNat
  (0x1F600 ≤ n && n ≤ 0x1F64F) ||
  (0x1F300 ≤ n && n ≤ 0x1F5FF) ||
  (0x1F680 ≤ n && n ≤ 0x1F6FF) ||
  (0x1F1E0 ≤ n && n ≤ 0x1F1FF) ||
  (0x2700 ≤ n && n ≤ 0x27BF) ||
  (0x1F900 ≤ n && n ≤ 0x1F9FF) ||
  (0x2600 ≤ n && n ≤ 0x26FF)

/-- strip_emoji (cleaner.py 26-27). -/
def strip_emoji (l : List Char) : List Char := l.filter fun c => !isEmojiChar c

/-- The named entities recognised when modelling Python html.unescape
(the stdlib entity table is an external collaborator; these are the
entities that occur in newsletter markup). -/
def entityTable : List (String × Char) :=
  [("amp", '&'), ("lt", '<'), ("gt", '>'), ("quot", '"'), ("apos", '\x27'),
   ("nbsp", '\u00A0'), ("mdash", '—'), ("ndash", '–'), ("hellip", '…'),
   ("rsquo", '’'), ("lsquo", '‘'), ("ldquo", '“'), ("rdquo", '”')]

def isHexDigitChar (c : Char) : Bool :=
  c.isDigit || ('a' ≤ c && c ≤ 'f') || ('A' ≤ c && c ≤ 'F')

def hexDigitVal (c : Char) : Nat :=
  if c.isDigit then c.toNat - '0'.toNat
  else if 'a' ≤ c && c ≤ 'f' then c.toNat - 'a'.toNat + 10
  else c.toNat - 'A'.toNat + 10

def natOfDec (ds : List Char) : Nat :=
  ds.foldl (fun acc c => acc * 10 + (c.toNat - '0'.toNat)) 0

def natOfHex (ds : List Char) : Nat :=
  ds.foldl (fun acc c => acc * 16 + hexDigitVal c) 0

/-- Parse one entity after an ampersand: numeric decimal, numeric hex,
or a named entity from the table, each ended by a semicolon. -/
def parseEntity (rest : List Char) : Option (Char × List Char) :=
  match rest with
  | '#' :: more =>
    match more with
    | 'x' :: hx =>
      let ds := hx.takeWhile isHexDigitChar
      if ds.isEmpty then none
      else match hx.drop ds.length with
        | ';' :: tail2 => some (Char.ofNat (natOfHex ds), tail2)
        | _ => none
    | 'X' :: hx =>
      let ds := hx.takeWhile isHexDigitChar
      if ds.isEmpty then none
      else match hx.drop ds.length with
        | ';' :: tail2 => some (Char.ofNat (natOfHex ds), tail2)
        | _ => none
    | _ =>
      let ds := more.takeWhile Char.isDigit
      if ds.isEmpty then none
      else match more.drop ds.length with
        | ';' :: tail2 => some (Char.ofNat (natOfDec ds), tail2)
        | _ => none
  | _ =>
    let name := rest.takeWhile Char.isAlphanum
    if name.isEmpty then none
    else match rest.drop name.length with
      | ';' :: tail2 =>
        match entityTable.find? (fun e => e.1.data == name) with
        | some e => some (e.2, tail2)
        | none => none
      | _ => none

/-- Model of Python html.unescape for the common entities. -/
def unescapeFuel : Nat → List Char → List Char
  | 0, l => l
  | _ + 1, [] => []
  | fuel + 1, '&' :: rest =>
    match parseEntity rest with
    | some (c, rest2) => c :: unescapeFuel fuel rest2
    | none => '&' :: unescapeFuel fuel rest
  | fuel + 1, c :: rest => c :: unescapeFuel fuel rest

def pyUnescape (s : String) : String :=
  ⟨unescapeFuel (s.data.length + 1) s.data⟩

/-- re.sub(r"[ \t]+", " ", ...) as a run-collapsing state machine. -/
def collapseWsAux : Bool → List Char → List Char
  | _, [] => []
  | inRun, c :: rest =>
    if c = ' ' || c = '\t' then
      if inRun then collapseWsAux true rest
      else ' ' :: collapseWsAux true rest
    else c :: collapseWsAux false rest

def collapseWs (l : List Char) : List Char := collapseWsAux false l

/-- re.sub(r"\[([A-Za-z])\]", r"\1", ...) (cleaner.py 142). -/
def bracketFix : List Char → List Char
  | '[' :: c :: ']' :: rest =>
    if c.isAlpha then c :: bracketFix rest
    else '[' :: bracketFix (c :: ']' :: rest)
  | c :: rest => c :: bracketFix rest
  | [] => []

/-- Markdown link removal [text](url) -> text (cleaner.py 87). -/
def mdLinks : Nat → List Char → List Char
  | 0, l => l
  | _ + 1, [] => []
  | fuel + 1, '[' :: rest =>
    (match rest.findIdx? (· = ']') with
    | some i =>
      if 1 ≤ i then
        match rest.drop (i + 1) with
        | '(' :: r2 =>
          (match r2.findIdx? (· = ')') with
          | some j =>
            if 1 ≤ j then rest.take i ++ mdLinks fuel (r2.drop (j + 1))
            else '[' :: mdLinks fuel rest
          | none => '[' :: mdLinks fuel rest)
        | _ => '[' :: mdLinks fuel rest
      else '[' :: mdLinks fuel rest
    | none => '[' :: mdLinks fuel rest)
  | fuel + 1, c :: rest => c :: mdLinks fuel rest

/-- Markdown image removal ![alt](url) -> alt (cleaner.py 89); the alt
text may be empty. -/
def mdImages : Nat → List Char → List Char
  | 0, l => l
  | _ + 1, [] => []
  | fuel + 1, '!' :: '[' :: rest =>
    (match rest.findIdx? (· = ']') with
    | some i =>
      (match rest.drop (i + 1) with
      | '(' :: r2 =>
        (match r2.findIdx? (· = ')') with
        | some j =>
          if 1 ≤ j then rest.take i ++ mdImages fuel (r2.drop (j + 1))
          else '!' :: mdImages fuel ('[' :: rest)
        | none => '!' :: mdImages fuel ('[' :: rest))
      | _ => '!' :: mdImages fuel ('[' :: rest))
    | none => '!' :: mdImages fuel ('[' :: rest))
  | fuel + 1, c :: rest => c :: mdImages fuel rest

/-- re.sub(r"_(.*?)_", r"\1", ...): non-greedy single-underscore pairs
that do not span a newline (cleaner.py 94). -/
def underscorePairs : Nat → List Char → List Char
  | 0, l => l
  | _ + 1, [] => []
  | fuel + 1, '_' :: rest =>
    (match rest.findIdx? (· = '_') with
    | some j =>
      if (rest.take j).contains '\n' then '_' :: underscorePairs fuel rest
      else rest.take j ++ underscorePairs fuel (rest.drop (j + 1))
    | none => '_' :: underscorePairs fuel rest)
  | fuel + 1, c :: rest => c :: underscorePairs fuel rest

/-- re.sub(r"^\s{0,3}#{1,6}\s+", "", ...) (cleaner.py 96). -/
def stripHeading (l : List Char) : List Char :=
  let ws := l.takeWhile isSpaceChar
  if ws.length ≤ 3 then
    let r1 := l.drop ws.length
    let hashes := r1.takeWhile (· = '#')
    if 1 ≤ hashes.length ∧ hashes.length ≤ 6 then
      let r2 := r1.drop hashes.length
      let sp := r2.takeWhile isSpaceChar
      if 1 ≤ sp.length then r2.drop sp.length else l
    else l
  else l

/-- re.sub(r"^\s*&gt;\s?", "", ...) (cleaner.py 98). -/
def stripBlockquote (l : List Char) : List Char :=
  let r1 := l.drop (l.takeWhile isSpaceChar).length
  match r1 with
  | '>' :: r2 =>
    (match r2 with
    | c :: r3 => if isSpaceChar c then r3 else r2
    | [] => [])
  | _ => l

/-- strip_markdown (cleaner.py 83-99): links, images, strong and code
markers, single-underscore italics, heading and blockquote markers, in
source order. -/
def strip_markdown (s : String) : String :=
  let t0 := s.data
  let t1 := mdLinks (t0.length + 1) t0
  let t2 := mdImages (t1.length + 1) t1
  let t3 := removeSub "**".data t2
  let t4 := removeSub "__".data t3
  let t5 := removeSub "`".data t4
  let t6 := underscorePairs (t5.length + 1) t5
  let t7 := stripHeading t6
  ⟨stripBlockquote t7⟩

/-! ### strip_noise_tokens (cleaner.py 101-134) -/

/-- The dollar anchor of the non-MULTILINE patterns: the remainder may
hold no newline except a single final one. -/
def tailOk (l : List Char) : Bool :=
  let core := match l.reverse with
    | '\n' :: r => r.reverse
    | _ => l
  !core.contains '\n'

/-- Remainder check for patterns ending in a whitespace run before the
trailing dot-star. -/
def tailOkWs (l : List Char) : Bool := tailOk (l.dropWhile isSpaceChar)

/-- The current line of the remainder (a dot cannot cross a newline). -/
def lineOf (l : List Char) : List Char := l.takeWhile (· ≠ '\n')

/-- Consume a case-insensitive literal (the pattern is lowercased). -/
def eatCI (w : String) (l : List Char) : Option (List Char) :=
  if prefixCI w.data l then some (l.drop w.data.length) else none

/-- Consume one-or-more whitespace. -/
def eatWsPlus (l : List Char) : Option (List Char) :=
  let sp := l.takeWhile isSpaceChar
  if sp.isEmpty then none else some (l.drop sp.length)

/-- Consume exactly n digits. -/
def eatDigits (n : Nat) (l : List Char) : Option (List Char) :=
  if ((l.take n).length = n ∧ (l.take n).all Char.isDigit) then some (l.drop n)
  else none

/-- Right word boundary at the head of the remainder. -/
def boundaryNext (l : List Char) : Bool :=
  match l with
  | [] => true
  | c :: _ => !isWordChar c

/-- Pattern 1: URL Source or Markdown Content label lines. -/
def noiseLine1 (l : List Char) : Bool :=
  let l1 := l.dropWhile isSpaceChar
  let label := fun (a b : String) =>
    match eatCI a l1 with
    | some r1 => eatCI b (r1.dropWhile isSpaceChar)
    | none => none
  match label "url" "source" with
  | some r => boundaryNext r && tailOk r
  | none =>
    match label "markdown" "content" with
    | some r => boundaryNext r && tailOk r
    | none => false

/-- Pattern 2: optional bang, then an Image line. -/
def noiseLine2 (l : List Char) : Bool :=
  let l1 := l.dropWhile isSpaceChar
  let l2 := match l1 with
    | '!' :: r => r
    | _ => l1
  match eatCI "image" (l2.dropWhile isSpaceChar) with
  | some r => boundaryNext r && tailOk r
  | none => false

/-- Pattern 3: Illustration lines. -/
def noiseLine3 (l : List Char) : Bool :=
  match eatCI "illustration" (l.dropWhile isSpaceChar) with
  | some r => boundaryNext r && tailOk r
  | none => false

/-- The timestamp tail of pattern 4. -/
def eatStamp (l : List Char) : Option (List Char) := do
  let r1 ← eatDigits 4 l
  let r2 ← eatCI "-" r1
  let r3 ← eatDigits 2 r2
  let r4 ← eatCI "-" r3
  let r5 ← eatDigits 2 r4
  let r6 ← match r5 with
    | c :: rest => if c = ' ' || c.toLower = 't' then some rest else none
    | [] => none
  let r7 ← eatDigits 2 r6
  let r8 ← eatCI ":" r7
  let r9 ← eatDigits 2 r8
  let r10 := match (do
      let a ← eatCI ":" r9
      eatDigits 2 a : Option (List Char)) with
    | some x => x
    | none => r9
  let r11 := match r10 with
    | c :: rest =>
      if c.toLower = 'z' then rest
      else if c = '+' || c = '-' then
        match (do
            let a ← eatDigits 2 rest
            let b := match eatCI ":" a with
              | some x => x
              | none => a
            eatDigits 2 b : Option (List Char)) with
        | some x => x
        | none => r10
      else r10
    | [] => r10
  some r11

/-- Pattern 4: Publish Time / Published Time lines with a timestamp. -/
def noiseLine4 (l : List Char) : Bool :=
  let l1 := l.dropWhile isSpaceChar
  let afterWord := fun (w : String) =>
    match eatCI w l1 with
    | some r1 =>
      match eatCI "time:" (r1.dropWhile isSpaceChar) with
      | some r2 => eatStamp (r2.dropWhile isSpaceChar)
      | none => none
    | none => none
  match afterWord "publish" with
  | some r => tailOk r
  | none =>
    match afterWord "published" with
    | some r => tailOk r
    | none => false

/-- Pattern 5: Title label lines. -/
def noiseLine5 (l : List Char) : Bool :=
  match eatCI "title" (l.dropWhile isSpaceChar) with
  | some r1 =>
    (match eatCI ":" (r1.dropWhile isSpaceChar) with
    | some r2 => tailOkWs r2
    | none => false)
  | none => false

/-- Pattern 6: the Share this story footer. -/
def noiseLine6 (l : List Char) : Bool :=
  match eatCI "share this story" (l.dropWhile isSpaceChar) with
  | some r1 =>
    let r2 := match r1 with
      | '.' :: rest => rest
      | _ => r1
    r2.all isSpaceChar
  | none => false

/-- Pattern 7: Thanks to footers. -/
def noiseLine7 (l : List Char) : Bool :=
  match eatCI "thanks to" (l.dropWhile isSpaceChar) with
  | some r => boundaryNext r && tailOk r
  | none => false

/-- Pattern 8: photo-credit label lines. -/
def noiseLine8 (l : List Char) : Bool :=
  let l1 := l.dropWhile isSpaceChar
  creditStarters.any fun w =>
    match eatCI w l1 with
    | some r1 =>
      (match eatCI ":" (r1.dropWhile isSpaceChar) with
      | some r2 => tailOkWs r2
      | none => false)
    | none => false

/-- Pattern 9: proxy warning lines with an error code. -/
def noiseLine9 (l : List Char) : Bool :=
  match eatCI "warning:" (l.dropWhile isSpaceChar) with
  | some r1 =>
    (match eatCI "target url returned error" (r1.dropWhile isSpaceChar) with
    | some r2 =>
      let r3 := r2.dropWhile isSpaceChar
      let ds := r3.takeWhile Char.isDigit
      !ds.isEmpty && tailOk (r3.drop ds.length)
    | none => false)
  | none => false

/-- Pattern 10: captcha warning lines. -/
def noiseLine10 (l : List Char) : Bool :=
  match eatCI "warning:" (l.dropWhile isSpaceChar) with
  | some r1 =>
    (match eatCI "this page" (r1.dropWhile isSpaceChar) with
    | some r2 => hasSub "captcha".data (lineOf r2) && tailOk r2
    | none => false)
  | none => false

/-- Pattern 11: Verify you are human lines. -/
def noiseLine11 (l : List Char) : Bool :=
  match eatCI "verify you are human" (l.dropWhile isSpaceChar) with
  | some r => tailOk r
  | none => false

/-- Pattern 12: connection-security interstitial lines; the literal may
sit anywhere in the single line. -/
def noiseLine12 (l : List Char) : Bool :=
  tailOk l && hasSub "needs to review the security of your connection".data (lineOf l)

/-- Pattern 13: Access denied lines. -/
def noiseLine13 (l : List Char) : Bool :=
  match eatCI "access denied" (l.dropWhile isSpaceChar) with
  | some r => tailOk r
  | none => false

/-- Pattern 14: a bare Forbidden line. -/
def noiseLine14 (l : List Char) : Bool :=
  match eatCI "forbidden" (l.dropWhile isSpaceChar) with
  | some r => r.all isSpaceChar
  | none => false

/-- Whole-line removal: any of the patterns_line entries of
cleaner.py 105-121 (all matched case-insensitively from the start). -/
def noiseLineMatch (l : List Char) : Bool :=
  noiseLine1 l || noiseLine2 l || noiseLine3 l || noiseLine4 l ||
  noiseLine5 l || noiseLine6 l || noiseLine7 l || noiseLine8 l ||
  noiseLine9 l || noiseLine10 l || noiseLine11 l || noiseLine12 l ||
  noiseLine13 l || noiseLine14 l

/-- Inline sub 1 (cleaner.py 127): a URL Source or Markdown Content
label, an optional colon, and the following token are removed. -/
def inlineLabelSub : Nat → Option Char → List Char → List Char
  | 0, _, l => l
  | _ + 1, _, [] => []
  | fuel + 1, prev, c :: rest =>
    let here := c :: rest
    let matched : Option (List Char) :=
      if (match prev with | none => true | some p => !isWordChar p) then
        let label :=
          match eatCI "url" here with
          | some r1 =>
            (match eatCI "source" (r1.dropWhile isSpaceChar) with
            | some r2 => if boundaryNext r2 then some r2 else none
            | none => none)
          | none =>
            match eatCI "markdown" here with
            | some r1 =>
              (match eatCI "content" (r1.dropWhile isSpaceChar) with
              | some r2 => if boundaryNext r2 then some r2 else none
              | none => none)
            | none => none
        match label with
        | some r2 =>
          let r3 := r2.dropWhile isSpaceChar
          let r4 := match r3 with
            | ':' :: t => t
            | _ => r3
          let r5 := r4.dropWhile isSpaceChar
          let tok := r5.takeWhile (fun d => !isSpaceChar d)
          if tok.isEmpty then none else some (r5.drop tok.length)
        | none => none
      else none
    match matched with
    | some after => inlineLabelSub fuel (some ' ') after
    | none => c :: inlineLabelSub fuel (some c) rest

/-- The credit-word head test for a parenthetical body
(first alternative of cleaner.py 129). -/
def parenCreditHead (inner : List Char) : Bool :=
  let c1 := inner.dropWhile isSpaceChar
  creditStarters.any fun w => prefixCI w.data c1 && boundaryAfter w.data c1

/-- The via-agency test inside a parenthetical body
(second alternative of cleaner.py 129). -/
def parenViaAgencyAux : Nat → Option Char → List Char → Bool
  | 0, _, _ => false
  | _ + 1, _, [] => false
  | fuel + 1, prev, c :: rest =>
    let here := c :: rest
    let hit :=
      if (match prev with | none => true | some p => !isWordChar p) then
        match eatCI "via" here with
        | some r1 =>
          (match eatWsPlus r1 with
          | some r2 =>
            (prefixCI "getty images".data r2 && boundaryAfter "getty images".data r2) ||
            (prefixCI "reuters".data r2 && boundaryAfter "reuters".data r2) ||
            (prefixCI "bloomberg".data r2 && boundaryAfter "bloomberg".data r2) ||
            (prefixCI "afp".data r2 && boundaryAfter "afp".data r2) ||
            (prefixCI "ap".data r2 &&
              ((match eatCI "ap" r2 with
                | some r3 =>
                  (match eatWsPlus r3 with
                  | some r4 => prefixCI "photo".data r4 && boundaryAfter "photo".data r4
                  | none => false)
                | none => false) ||
               boundaryAfter "ap".data r2))
          | none => false)
        | none => false
      else false
    hit || parenViaAgencyAux fuel (some c) rest

def parenViaAgency (inner : List Char) : Bool :=
  parenViaAgencyAux (inner.length + 1) none inner

/-- Inline sub 2 (cleaner.py 128-129): remove parenthetical photo
credits. -/
def parenCreditSub : Nat → List Char → List Char
  | 0, l => l
  | _ + 1, [] => []
  | fuel + 1, '(' :: rest =>
    let inner := rest.takeWhile (· ≠ ')')
    (match rest.drop inner.length with
    | ')' :: after =>
      if parenCreditHead inner || parenViaAgency inner then
        parenCreditSub fuel after
      else '(' :: parenCreditSub fuel rest
    | _ => '(' :: parenCreditSub fuel rest)
  | fuel + 1, c :: rest => c :: parenCreditSub fuel rest

/-- The label-to-end-of-clause match of inline sub 3 (cleaner.py 131):
whitespace, a credit word, a colon, then everything up to the next
newline or period. -/
def inlineCreditFrom (l : List Char) : Option (List Char) :=
  let l1 := l.dropWhile isSpaceChar
  creditStarters.firstM fun w =>
    match eatCI w l1 with
    | some r1 =>
      (match eatCI ":" (r1.dropWhile isSpaceChar) with
      | some r2 =>
        let r3 := r2.dropWhile isSpaceChar
        some (r3.dropWhile fun d => d ≠ '\n' && d ≠ '.')
      | none => none)
    | none => none

/-- Inline sub 3 (cleaner.py 131): remove trailing credits at the start
of the text or after a period or semicolon (the punctuation is part of
the removed match). -/
def inlineCreditSubAux : Nat → List Char → List Char
  | 0, l => l
  | _ + 1, [] => []
  | fuel + 1, c :: rest =>
    if c = '.' || c = ';' then
      match inlineCreditFrom rest with
      | some after => inlineCreditSubAux fuel after
      | none => c :: inlineCreditSubAux fuel rest
    else c :: inlineCreditSubAux fuel rest

def inlineCreditSub (l : List Char) : List Char :=
  match inlineCreditFrom l with
  | some after => inlineCreditSubAux (after.length + 1) after
  | none => inlineCreditSubAux (l.length + 1) l

/-- The extended agency list of inline sub 4 (cleaner.py 133),
lowercased. -/
def viaAgencies : List String :=
  ["getty images", "reuters", "bloomberg", "afp", "wireimage", "usa today"]

/-- Inline sub 4 (cleaner.py 133): remove a via-agency credit and the
rest of its clause. -/
def viaAgencySub : Nat → Option Char → List Char → List Char
  | 0, _, l => l
  | _ + 1, _, [] => []
  | fuel + 1, prev, c :: rest =>
    let here := c :: rest
    let matched : Option (List Char) :=
      if (match prev with | none => true | some p => !isWordChar p) then
        match eatCI "via" here with
        | some r1 =>
          (match eatWsPlus r1 with
          | some r2 =>
            let agency : Option (List Char) :=
              match viaAgencies.firstM (fun a =>
                  if prefixCI a.data r2 && boundaryAfter a.data r2 then
                    some (r2.drop a.data.length)
                  else none) with
              | some r3 => some r3
              | none =>
                match eatCI "ap" r2 with
                | some r3 =>
                  (match eatWsPlus r3 with
                  | some r4 =>
                    if prefixCI "photo".data r4 && boundaryAfter "photo".data r4 then
                      some (r4.drop "photo".length)
                    else if boundaryAfter "ap".data r2 then some r3 else none
                  | none =>
                    if boundaryAfter "ap".data r2 then some r3 else none)
                | none => none
            match agency with
            | some r3 => some (r3.dropWhile fun d => d ≠ '\n' && d ≠ '.')
            | none => none
          | none => none)
        | none => none
      else none
    match matched with
    | some after => viaAgencySub fuel (some ' ') after
    | none => c :: viaAgencySub fuel (some c) rest

/-- strip_noise_tokens (cleaner.py 101-134): drop whole noise lines,
then apply the four inline removals and strip. -/
def strip_noise_tokens (s : String) : String :=
  if noiseLineMatch (lowerChars s.data) then ""
  else
    let t0 := s.data
    let t1 := inlineLabelSub (t0.length + 1) none t0
    let t2 := parenCreditSub (t1.length + 1) t1
    let t3 := inlineCreditSub t2
    let t4 := viaAgencySub (t3.length + 1) none t3
    pyStrip ⟨t4⟩

/-- re.sub(r"^\s*[\-*â€¢]\s+", "", ...) (cleaner.py 148); the bullet
character class is taken verbatim from the source file. -/
def bulletStrip (l : List Char) : List Char :=
  let r1 := l.drop (l.takeWhile isSpaceChar).length
  match r1 with
  | c :: r2 =>
    if c = '-' || c = '*' || c = 'â' || c = '€' || c = '¢' then
      let sp := r2.takeWhile isSpaceChar
      if sp.isEmpty then l else r2.drop sp.length
    else l
  | [] => l

/-- re.sub(r":(?=\S)", ": ", ...) (cleaner.py 150). -/
def colonSpace : List Char → List Char
  | ':' :: c :: rest =>
    if !isSpaceChar c then ':' :: ' ' :: colonSpace (c :: rest)
    else ':' :: colonSpace (c :: rest)
  | c :: rest => c :: colonSpace rest
  | [] => []

/-- The per-paragraph cleaning chain of clean_html_text
(cleaner.py 137-154). -/
def cleanParagraph (remove_emoji : Bool) (p : String) : String :=
  let c1 := pyUnescape p
  let c2 := pyStrip ⟨collapseWs c1.data⟩
  let c3 : String := ⟨bracketFix c2.data⟩
  let c4 := strip_markdown c3
  let c5 := strip_noise_tokens c4
  let c6 : String := ⟨bulletStrip c5.data⟩
  let c7 : String := ⟨colonSpace c6.data⟩
  if remove_emoji then ⟨strip_emoji c7.data⟩ else c7

/-! ### clean_html_text assembly (cleaner.py 30-162) -/

/-- re.split(r"\n{2,}", ...): split on runs of two or more newlines,
keeping single newlines inside segments (state machine over the count
of pending newlines). -/
def splitNl2Aux : List Char → List Char → Nat → List (List Char)
  | [], cur, nl =>
    if nl = 1 then [('\n' :: cur).reverse]
    else if 2 ≤ nl then [cur.reverse, []]
    else [cur.reverse]
  | c :: rest, cur, nl =>
    if c = '\n' then splitNl2Aux rest cur (nl + 1)
    else if nl = 0 then splitNl2Aux rest (c :: cur) 0
    else if nl = 1 then splitNl2Aux rest (c :: '\n' :: cur) 0
    else cur.reverse :: splitNl2Aux rest [c] 0

def splitNl2 (l : List Char) : List (List Char) := splitNl2Aux l [] 0

/-- Python html.escape with quote=True (used for desc_html,
cleaner.py 159). -/
def htmlEscape (s : String) : String :=
  ⟨s.data.foldr (fun c acc =>
    if c = '&' then "&amp;".data ++ acc
    else if c = '<' then "&lt;".data ++ acc
    else if c = '>' then "&gt;".data ++ acc
    else if c = '"' then "&quot;".data ++ acc
    else if c = '\x27' then "&#x27;".data ++ acc
    else c :: acc) []⟩

/-- The block-level tags flattened into paragraphs (cleaner.py 73). -/
def blockTags : List String := ["p", "h1", "h2", "h3", "li", "blockquote"]

/-- The ad-removal step (cleaner.py 61-65), applied only when enabled
and keywords exist. -/
def adsStep (remove_ads : Bool) (ad_keywords : List String) (nodes : List HNode) :
    List HNode :=
  if remove_ads && !ad_keywords.isEmpty then dropIfL (isAdEl ad_keywords) nodes
  else nodes

/-- Paragraph flattening and per-paragraph cleaning
(cleaner.py 71-162): block elements, the blank-line fallback, the
cleaning chain, and the joined text with its escaped HTML twin. -/
def paragraphPhase (remove_emoji : Bool) (nodes : List HNode) : String × String :=
  let unwrapped := unwrapLinksL nodes
  let rawParts0 := ((collectBlocksL blockTags unwrapped).map (getTextStrip " ")).filter (· ≠ "")
  let rawParts :=
    if rawParts0.isEmpty then
      ((splitNl2 (forestTextStrip "\n" unwrapped).data).map
        (fun l => pyStrip ⟨l⟩)).filter (· ≠ "")
    else rawParts0
  let cleanedParts := (rawParts.map (cleanParagraph remove_emoji)).filter (· ≠ "")
  ("\n\n".intercalate cleanedParts,
    String.join (cleanedParts.map fun p => "<p>" ++ htmlEscape p ++ "</p>"))

/-- clean_html_text (cleaner.py 30-162) over a parsed node forest:
non-text tag removal, credit-element removal, optional ad removal,
link unwrapping, then the paragraph phase. -/
def clean_html_text (roots : List HNode) (remove_emoji remove_ads : Bool)
    (ad_keywords : List String) : String × String :=
  paragraphPhase remove_emoji
    (adsStep remove_ads ad_keywords (dropIfL isCreditEl (dropIfL isNonTextEl roots)))

/-- The parse tree BeautifulSoup produces for the spec snippet
(the HTML parser is an external collaborator):
one paragraph holding the text "Hello ", a bold element with "World",
and the text "! (Photo: Getty Images)". -/
def snippetTree : List HNode :=
  [.el "p" [.txt "Hello ", .el "b" [.txt "World"], .txt "! (Photo: Getty Images)"]]

lemma dropIfL_nil (p : HNode → Bool) : dropIfL p [] = [] := rfl

lemma adsStep_nil (ra : Bool) (kw : List String) : adsStep ra kw [] = [] := by
  unfold adsStep
  split
  · rfl
  · rfl

end Cleaner

/-- C4 counterexample: on the snippet the Normalizer returns an empty
clean_text (and empty desc_html), not "Hello World!": the whole
paragraph is removed by the element-level credit heuristic before the
inline credit stripper can run. -/
theorem claim_C4_counterexample :
    Cleaner.clean_html_text Cleaner.snippetTree false false [] = ("", "") ∧
    ("" : String) ≠ "Hello World!" := by
  exact ⟨rfl, by decide⟩

/-- C4 amended: for the snippet input, under every flag combination the
Normalizer emits clean_text = "" (with desc_html = ""), because the
paragraph text mentions a wire-service name together with a credit
word, so _is_credit_text marks the whole paragraph element and it is
decomposed; nothing survives to the paragraph phase. -/
theorem claim_C4_credit_paragraph_removed (re ra : Bool) (kw : List String) :
    Cleaner.isCreditText
        (Cleaner.getTextStrip " "
          (.el "p" [.txt "Hello ", .el "b" [.txt "World"],
            .txt "! (Photo: Getty Images)"])) = true ∧
    Cleaner.clean_html_text Cleaner.snippetTree re ra kw = ("", "") := by
  constructor
  · rfl
  · show Cleaner.paragraphPhase re
        (Cleaner.adsStep ra kw
          (Cleaner.dropIfL Cleaner.isCreditEl
            (Cleaner.dropIfL Cleaner.isNonTextEl Cleaner.snippetTree))) = ("", "")
    rw [show Cleaner.dropIfL Cleaner.isCreditEl
        (Cleaner.dropIfL Cleaner.isNonTextEl Cleaner.snippetTree) = [] from rfl]
    rw [Cleaner.adsStep_nil]
    rfl

/-! ## main.py — episode assembly and state machine -/

namespace Main

/-- A calendar date as produced by datetime.date. -/
structure PyDate where
  y : Nat
  m : Nat
  d : Nat
deriving DecidableEq, Repr

/-- A totally ordered key for date comparison (valid dates only ever
have m at most 12 and d at most 31). -/
def PyDate.key (dt : PyDate) : Nat := (dt.y * 100 + dt.m) * 100 + dt.d

/-- A timezone-aware datetime, reduced to its date and the second of
the day (all datetimes in the pipeline are UTC). -/
structure PyDateTime where
  date : PyDate
  sec : Nat
deriving DecidableEq, Repr

def PyDateTime.key (t : PyDateTime) : Nat := t.date.key * 100000 + t.sec

def pad2 (n : Nat) : String := if n < 10 then "0" ++ toString n else toString n

def pad4 (n : Nat) : String :=
  if n < 10 then "000" ++ toString n
  else if n < 100 then "00" ++ toString n
  else if n < 1000 then "0" ++ toString n
  else toString n

/-- datetime.date.isoformat. -/
def PyDate.iso (dt : PyDate) : String :=
  pad4 dt.y ++ "-" ++ pad2 dt.m ++ "-" ++ pad2 dt.d

/-- One fetched unit as produced by fetch_feed. -/
structure SourceItem where
  guid : String
  link : String
  title : String
  author : String
  published : String
  content_html : String
  content_source : String
deriving DecidableEq, Repr

/-- A SourceItem enriched by the normalization loop (main.py 124-137);
the fallback pool of forced mode carries an empty key, faithful to
main.py 283 where no key is attached. -/
structure NormItem where
  item : SourceItem
  clean_text : String
  desc_html : String
  key : String
deriving DecidableEq, Repr

/-- A publishable episode record. -/
structure Episode where
  id : String
  title : String
  link : String
  pub_date : PyDateTime
  description_html : String
  audio_url : Option String
  audio_bytes : Nat
  components : List (String × String × String)
  transcript_url : Option String
  content_hash : Option String
deriving DecidableEq, Repr

/-- The persisted processing state (storage.py): the processed keys
(their timestamps play no role in the logic), the episode list and the
last_issue marker. -/
structure PState where
  processed : List String
  episodes : List Episode
  last_issue : Option (String × String)
deriving DecidableEq, Repr

/-- The external collaborators of run(): dateutil parsing, the clock,
BeautifulSoup plus clean_html_text, hashlib sha256, the optional LLM
cleanup and rewrite transforms, and the speech synthesizer (ok with the
audio byte count, or the caught exception message). -/
structure Oracles where
  parseDT : String → Option PyDateTime
  fuzzyDT : String → Option PyDateTime
  now : PyDateTime
  clean : String → String × String
  sha : String → String
  llmClean : String → String
  rewrite : String → String
  tts : String → Except String Nat

/-- The configuration fields the assembly logic reads. -/
structure RunCtx where
  feedName : String
  siteLink : String
  siteAuthor : String
  audioDir : String
  ttsEnabled : Bool

/-- parse_datetime (main.py 28-37): dateutil parse with the current
time as the fallback for None or an exception. -/
def parse_datetime (o : Oracles) (s : String) : PyDateTime :=
  (o.parseDT s).getD o.now

/-- Gregorian leap year. -/
def leapYear (y : Nat) : Bool := (y % 4 = 0 && y % 100 ≠ 0) || y % 400 = 0

def daysInMonth (y m : Nat) : Nat :=
  if m = 1 || m = 3 || m = 5 || m = 7 || m = 8 || m = 10 || m = 12 then 31
  else if m = 4 || m = 6 || m = 9 || m = 11 then 30
  else if leapYear y then 29 else 28

/-- dt.date(y, m, d) succeeds exactly on valid calendar dates; an
invalid triple raises ValueError (main.py 54-57). -/
def validDate (y m d : Nat) : Bool :=
  1 ≤ m && m ≤ 12 && 1 ≤ d && d ≤ daysInMonth y m

def natOfDigit (c : Char) : Nat := c.toNat - '0'.toNat

def isDateSep (c : Char) : Bool := c = '-' || c = '/' || c = '.'

/-- Month-then-separator with the greedy two-digit attempt of
\d{1,2} followed by a separator. -/
def monthSep (sep : Char → Bool) (l : List Char) : Option (Nat × List Char) :=
  match l with
  | m1 :: m2 :: s2 :: rest =>
    if m1.isDigit && m2.isDigit && sep s2 then
      some (natOfDigit m1 * 10 + natOfDigit m2, rest)
    else if m1.isDigit && sep m2 then some (natOfDigit m1, s2 :: rest)
    else none
  | [m1, m2] => if m1.isDigit && sep m2 then some (natOfDigit m1, []) else none
  | _ => none

/-- Day digits: greedy two then one, with no mandatory follower. -/
def dayTake (l : List Char) : Option Nat :=
  match l with
  | d1 :: d2 :: _ =>
    if d1.isDigit then
      if d2.isDigit then some (natOfDigit d1 * 10 + natOfDigit d2)
      else some (natOfDigit d1)
    else none
  | [d1] => if d1.isDigit then some (natOfDigit d1) else none
  | [] => none

/-- Day digits that must be followed by a closing character
(the Chinese date pattern ends in 日). -/
def dayTakeClosed (close : Char) (l : List Char) : Option Nat :=
  match l with
  | d1 :: d2 :: s :: _ =>
    if d1.isDigit && d2.isDigit && s = close then
      some (natOfDigit d1 * 10 + natOfDigit d2)
    else if d1.isDigit && d2 = close then some (natOfDigit d1)
    else none
  | [d1, d2] => if d1.isDigit && d2 = close then some (natOfDigit d1) else none
  | _ => none

/-- The numeric date pattern of main.py 51: a year 20xx, then month
and day of one or two digits, separated by a dash, slash or dot. -/
def matchNumDate (l : List Char) : Option (Nat × Nat × Nat) :=
  match l with
  | '2' :: '0' :: a :: b :: s1 :: rest =>
    if a.isDigit && b.isDigit && isDateSep s1 then
      match monthSep isDateSep rest with
      | some (mo, rest2) =>
        (match dayTake rest2 with
        | some d => some (2000 + natOfDigit a * 10 + natOfDigit b, mo, d)
        | none => none)
      | none => none
    else none
  | _ => none

/-- The Chinese date pattern (20\d{2})年(\d{1,2})月(\d{1,2})日
(main.py 60). -/
def matchCnDate (l : List Char) : Option (Nat × Nat × Nat) :=
  match l with
  | '2' :: '0' :: a :: b :: s1 :: rest =>
    if a.isDigit && b.isDigit && s1 = '年' then
      match monthSep (· = '月') rest with
      | some (mo, rest2) =>
        (match dayTakeClosed '日' rest2 with
        | some d => some (2000 + natOfDigit a * 10 + natOfDigit b, mo, d)
        | none => none)
      | none => none
    else none
  | _ => none

/-- Leftmost search for a position pattern. -/
def scanFor (p : List Char → Option (Nat × Nat × Nat)) : List Char → Option (Nat × Nat × Nat)
  | [] => none
  | c :: rest =>
    match p (c :: rest) with
    | some r => some r
    | none => scanFor p rest

/-- The month-name alternatives of main.py 70, lowercased, in regex
order. -/
def titleMonthWords : List String :=
  ["jan", "feb", "mar", "apr", "may", "jun", "jul", "aug", "sep", "sept",
   "oct", "nov", "dec", "january", "february", "march", "april", "june",
   "july", "august", "september", "october", "november", "december"]

/-- extract_date_from_title (main.py 39-78): numeric format, then the
Chinese format, then a fuzzy dateutil parse when an English month name
occurs as a whole word. -/
def extract_date_from_title (o : Oracles) (title : String) : Option PyDate :=
  if title = "" then none
  else
    let monthBranch : Option PyDate :=
      if titleMonthWords.any (fun w => containsWordCI title w) then
        (o.fuzzyDT title).map (·.date)
      else none
    let cnBranch : Option PyDate :=
      match scanFor matchCnDate title.data with
      | some (y, mo, d) => if validDate y mo d then some ⟨y, mo, d⟩ else monthBranch
      | none => monthBranch
    match scanFor matchNumDate title.data with
    | some (y, mo, d) => if validDate y mo d then some ⟨y, mo, d⟩ else cnBranch
    | none => cnBranch

/-! ### Normalization and state helpers -/

/-- The normalization of one item (the loop body of main.py 126-136):
clean, hash the cleaned text, and build the dedup key. -/
def prepNorm (o : Oracles) (it : SourceItem) : NormItem :=
  let cd := o.clean it.content_html
  { item := it, clean_text := cd.1, desc_html := cd.2,
    key := it.guid ++ "::" ++ o.sha cd.1 }

/-- The normalization loop of run() (main.py 124-137): keep only items
whose key is not yet processed. -/
def prepareNewItems (o : Oracles) (processed : List String)
    (items : List SourceItem) : List NormItem :=
  items.filterMap fun it =>
    let n := prepNorm o it
    if n.key ∈ processed then none else some n

/-- The fallback enrichment of forced mode (main.py 271-284): clean all
raw items; no dedup key is attached (the except fallback of the source
models a parser failure, an external event absent from the model). -/
def enrichAll (o : Oracles) (items : List SourceItem) : List NormItem :=
  items.map fun it =>
    let cd := o.clean it.content_html
    { item := it, clean_text := cd.1, desc_html := cd.2, key := "" }

/-- Python str.split for a nonempty separator, fuelled by the input
length. -/
def splitSubFuel (pat : List Char) : Nat → List Char → List Char → List (List Char)
  | 0, l, cur => [cur.reverse ++ l]
  | _ + 1, [], cur => [cur.reverse]
  | fuel + 1, c :: rest, cur =>
    if ¬pat.isEmpty ∧ pat.isPrefixOf (c :: rest) then
      cur.reverse :: splitSubFuel pat fuel ((c :: rest).drop pat.length) []
    else splitSubFuel pat fuel rest (c :: cur)

def pySplitStr (s pat : String) : List String :=
  (splitSubFuel pat.data (s.data.length + 1) s.data []).map fun l => ⟨l⟩

/-- The id-suffix fallback of episode_content_hash (main.py 327-329):
the part of the id after the last "::". -/
def idSuffix (ep : Episode) : Option String :=
  if containsSub ep.id "::" then (pySplitStr ep.id "::").getLast? else none

/-- episode_content_hash (main.py 323-332): the stored content_hash
when truthy, else the id suffix. -/
def episode_content_hash (ep : Episode) : Option String :=
  match ep.content_hash with
  | some h => if h ≠ "" then some h else idSuffix ep
  | none => idSuffix ep

/-- Python truthiness of an episode audio_url. -/
def audioTruthy (ep : Episode) : Bool :=
  match ep.audio_url with
  | some u => u ≠ ""
  | none => false

/-- build_public_url (main.py 81-82). -/
def build_public_url (site rel : String) : String :=
  (⟨(site.data.reverse.dropWhile (· = '/')).reverse⟩ : String) ++ "/" ++
    (⟨rel.data.dropWhile (· = '/')⟩ : String)

/-- In-place refresh of the first episode satisfying the predicate
(the dict mutation of main.py 349-351 and 518-524). -/
def replaceFirstDesc (p : Episode → Bool) (newDesc : String) :
    List Episode → List Episode
  | [] => []
  | ep :: rest =>
    if p ep then { ep with description_html := newDesc } :: rest
    else ep :: replaceFirstDesc p newDesc rest

/-- The descending pub_date ordering of main.py 766. -/
def descRel (a b : Episode) : Prop := b.pub_date.key ≤ a.pub_date.key

instance : DecidableRel descRel := fun a b =>
  inferInstanceAs (Decidable (b.pub_date.key ≤ a.pub_date.key))

instance : IsTotal Episode descRel :=
  ⟨fun a b => by unfold descRel; exact Nat.le_total _ _⟩

instance : IsTrans Episode descRel :=
  ⟨fun a b c h1 h2 => by unfold descRel at *; exact Nat.le_trans h2 h1⟩

/-- The append-sort-trim of main.py 763-766: extend with the created
episodes, sort by pub_date descending, keep the first 200. -/
def mergeEpisodes (old new : List Episode) : List Episode :=
  if new.isEmpty then old
  else (List.insertionSort descRel (old ++ new)).take 200

/-- The outcome of one run: the created episodes, the force-rewrite
flag, whether the run returned early as a no-op (leaving the persisted
state untouched), and the state that ends up on disk. -/
structure RunOut where
  created : List Episode
  forceRewrite : Bool
  noop : Bool
  state : PState
deriving Repr

/-- The common tail of run() (main.py 755-796): early exit when there
is nothing to publish and no forced rewrite; otherwise mark the new
keys processed, merge the created episodes, and save. -/
def runTail (baseState : PState) (lastIssue : Option (String × String))
    (episodesCur : List Episode) (new_items : List NormItem)
    (created : List Episode) (force : Bool) : RunOut :=
  if created.isEmpty ∧ ¬force then
    { created := [], forceRewrite := force, noop := true, state := baseState }
  else
    { created := created, forceRewrite := force, noop := false,
      state := { processed := baseState.processed ++ new_items.map (·.key),
                 episodes := mergeEpisodes episodesCur created,
                 last_issue := lastIssue } }

/-! ### forced_compilation / newsletter mode (main.py 265-615) -/

/-- The issue-item filter (main.py 285-287). -/
def issueCandidates (pool : List NormItem) : List NormItem :=
  pool.filter fun it =>
    it.item.content_source = "newsletter_issue" ∨
    it.item.content_source = "newsletter_issue_text"

/-- One comparison step of the most-recent-candidate selection. -/
def pickStep (o : Oracles) (best : Option NormItem) (it : NormItem) : Option NormItem :=
  match best with
  | none => some it
  | some b =>
    if (parse_datetime o b.item.published).key <
        (parse_datetime o it.item.published).key then some it
    else some b

/-- The most recent candidate by published datetime, first on ties
(the stable descending sort and [0] of main.py 291-295). -/
def pickLatest (o : Oracles) (cands : List NormItem) : Option NormItem :=
  cands.foldl (pickStep o) none

/-- The pre-rewrite canonical hash of an issue item (main.py 313-314). -/
def issueHash (o : Oracles) (iss : NormItem) : String :=
  o.sha (if iss.clean_text ≠ "" then iss.clean_text else iss.item.content_html)

/-- The duplicate test of the issue branch (main.py 334-341): an
episode whose content hash equals the candidate hash. -/
def issueDupPred (o : Oracles) (iss : NormItem) (ep : Episode) : Bool :=
  episode_content_hash ep == some (issueHash o iss)

/-- The pre-TTS narration text of the issue branch (main.py 375-383):
the title and author sentence followed by the cleaned text, passed
through the LLM cleanup and the optional rewrite. -/
def issueText (ctx : RunCtx) (o : Oracles) (iss : NormItem) : String :=
  let orig_title := if iss.item.title ≠ "" then iss.item.title
    else ctx.feedName ++ " — Latest"
  o.rewrite (o.llmClean
    (orig_title ++ "." ++
      (if iss.item.author ≠ "" then " By " ++ iss.item.author ++ "." else "") ++
      " " ++ iss.clean_text))

/-- The episode record built by the issue branch of forced mode
(main.py 297-452) given the outcome of the TTS attempt: titles, dates,
and the resulting audio and transcript fields. -/
def issueEpisodeCore (ctx : RunCtx) (o : Oracles) (iss : NormItem)
    (ttsRes : Option (Except String Nat)) : Episode :=
  let orig_title := if iss.item.title ≠ "" then iss.item.title
    else ctx.feedName ++ " — Latest"
  let link := iss.item.link
  let pub_dt0 := parse_datetime o iss.item.published
  let title_date := extract_date_from_title o orig_title
  let effective_date := title_date.getD pub_dt0.date
  let pub_dt : PyDateTime := { pub_dt0 with date := effective_date }
  let episode_title := ctx.feedName ++ ": " ++ effective_date.iso
  let current_hash := issueHash o iss
  let date_folder := ctx.audioDir ++ "/" ++ toString effective_date.y ++ "/" ++
    pad2 effective_date.m
  let transcript_rel := date_folder ++ "/" ++ effective_date.iso ++ ".txt"
  let audio : Option (String × Nat) := match ttsRes with
    | some (.ok n) => some (date_folder ++ "/" ++ effective_date.iso ++ ".mp3", n)
    | _ => none
  let tts_error : Option String := match ttsRes with
    | some (.error e) => some e
    | _ => none
  { id := "issue::" ++ effective_date.iso ++ "::" ++ current_hash,
    title := episode_title,
    link := link,
    pub_date := pub_dt,
    description_html := iss.desc_html ++ (match tts_error with
      | some e => "<p><em>TTS failed: " ++ e ++ "</em></p>"
      | none => ""),
    audio_url := audio.map fun a => build_public_url ctx.siteLink a.1,
    audio_bytes := (audio.map (·.2)).getD 0,
    components := [(iss.item.title, link, iss.item.content_source)],
    transcript_url := some (build_public_url ctx.siteLink transcript_rel),
    content_hash := some current_hash }

/-- The episode built by the issue branch of forced mode: the TTS call
fires only when synthesis is enabled (main.py 398-415). -/
def issueEpisode (ctx : RunCtx) (o : Oracles) (iss : NormItem) : Episode :=
  issueEpisodeCore ctx o iss
    (if ctx.ttsEnabled then some (o.tts (issueText ctx o iss)) else none)

/-- The issue branch of forced mode (main.py 297-460).  The transcript
file write is a side effect outside the state model; the
has_episode_with_audio computation of main.py 358-366 is dead code and
is omitted. -/
def runForcedIssue (ctx : RunCtx) (o : Oracles) (st : PState)
    (new_items : List NormItem) (iss : NormItem) : RunOut :=
  let dup := st.episodes.find? (issueDupPred o iss)
  let dupSkip := match dup with
    | some dep => audioTruthy dep
    | none => false
  if dupSkip then
    -- main.py 344-354: no new episode; refresh the duplicate description
    -- and force a feed/index rewrite
    let eps := if iss.desc_html ≠ "" then
        replaceFirstDesc (issueDupPred o iss) iss.desc_html st.episodes
      else st.episodes
    runTail st st.last_issue eps new_items [] true
  else
    let episode := issueEpisode ctx o iss
    -- main.py 453-456: drop any existing episode for the same date
    let epsFiltered := st.episodes.filter fun ep =>
      ¬(ep.pub_date.date = episode.pub_date.date)
    runTail st (some (iss.item.published, iss.item.guid)) epsFiltered
      new_items [episode] false

/-- The per-item text parts of the compilation loops (main.py 471-474
and 625-628); the author falls back to the site author when falsy. -/
def poolParts (ctx : RunCtx) (pool : List NormItem) : List String :=
  (pool.enum.map fun p =>
    let author := if p.2.item.author ≠ "" then p.2.item.author else ctx.siteAuthor
    ["Item " ++ toString (p.1 + 1) ++ ": " ++ p.2.item.title ++ "." ++
      (if author ≠ "" then " By " ++ author ++ "." else ""),
     p.2.clean_text]).flatten

/-- The refreshed compilation description (main.py 520-524, 592-594 and
657-661). -/
def poolDesc (pool : List NormItem) : String :=
  String.join (pool.enum.map fun p =>
    "<p><strong>" ++ toString (p.1 + 1) ++ ". " ++ p.2.item.title ++
      "</strong><br/>" ++ p.2.desc_html ++ "</p>")

/-- The component list markup of the compilation branches
(main.py 595-599 and 733-737). -/
def poolCompList (pool : List NormItem) : String :=
  String.join (pool.map fun it =>
    "<li><a href=\"" ++ it.item.link ++ "\">" ++ it.item.title ++
      "</a> — source: " ++ it.item.content_source ++ "</li>")

/-- The pre-rewrite canonical hash of the compilation pool
(main.py 498-503). -/
def compHash (o : Oracles) (pool : List NormItem) : String :=
  o.sha ("\n\n".intercalate (pool.map (·.clean_text)))

/-- The duplicate test of the fallback branch (main.py 507-514): a
hash match that already carries audio. -/
def fallbackDupPred (o : Oracles) (pool : List NormItem) (ep : Episode) : Bool :=
  episode_content_hash ep == some (compHash o pool) && audioTruthy ep

/-- The latest published datetime of the pool (main.py 481-482). -/
def poolLatest (o : Oracles) (pool : List NormItem) : Option PyDateTime :=
  pool.foldl (fun acc it =>
    match acc with
    | none => some (parse_datetime o it.item.published)
    | some b =>
      let dtv := parse_datetime o it.item.published
      if b.key < dtv.key then some dtv else some b) none

/-- The episode built by the fallback branch of forced mode
(main.py 467-614). -/
def fallbackEpisode (ctx : RunCtx) (o : Oracles) (pool : List NormItem) : Episode :=
  let text0 := "\n\n".intercalate (poolParts ctx pool)
  let text := o.rewrite (o.llmClean text0)
  let link := ((pool.head?).map (·.item.link)).getD ctx.siteLink
  let pub_dt := (poolLatest o pool).getD o.now
  let episode_title := ctx.feedName ++ ": " ++ pub_dt.date.iso
  let comp_hash := compHash o pool
  let date_folder := ctx.audioDir ++ "/" ++ toString pub_dt.date.y ++ "/" ++
    pad2 pub_dt.date.m
  let transcript_rel := date_folder ++ "/" ++ pub_dt.date.iso ++ ".txt"
  let ttsRes := if ctx.ttsEnabled then some (o.tts text) else none
  let audio : Option (String × Nat) := match ttsRes with
    | some (.ok n) => some (date_folder ++ "/" ++ pub_dt.date.iso ++ ".mp3", n)
    | _ => none
  let tts_error : Option String := match ttsRes with
    | some (.error e) => some e
    | _ => none
  { id := "forced::" ++ pub_dt.date.iso ++ "::" ++ comp_hash,
    title := episode_title,
    link := link,
    pub_date := pub_dt,
    description_html := poolDesc pool ++ "<h4>Included items</h4><ul>" ++
      poolCompList pool ++ "</ul>" ++ (match tts_error with
        | some e => "<p><em>TTS failed: " ++ e ++ "</em></p>"
        | none => ""),
    audio_url := audio.map fun a => build_public_url ctx.siteLink a.1,
    audio_bytes := (audio.map (·.2)).getD 0,
    components := pool.map fun it => (it.item.title, it.item.link, it.item.content_source),
    transcript_url := some (build_public_url ctx.siteLink transcript_rel),
    content_hash := some comp_hash }

/-- The fallback branch of forced mode (main.py 462-615): compile the
whole pool into one episode.  The today_hash assignment of main.py
484-489 reads the unbound name todays inside a try, so its except arm
hashes the assembled pre-LLM text; the value is never used again. -/
def runForcedFallback (ctx : RunCtx) (o : Oracles) (st : PState)
    (new_items pool : List NormItem) : RunOut :=
  if pool.isEmpty then
    { created := [], forceRewrite := false, noop := true, state := st }
  else
    let _today_hash := o.sha ("\n\n".intercalate (poolParts ctx pool))
    match st.episodes.find? (fallbackDupPred o pool) with
    | some _ =>
      -- main.py 514-527: skip generation, refresh the matching episode
      let newDesc := poolDesc pool
      let eps := if newDesc ≠ "" then
          replaceFirstDesc (fallbackDupPred o pool) newDesc st.episodes
        else st.episodes
      runTail st st.last_issue eps new_items [] true
    | none =>
      runTail st st.last_issue st.episodes new_items [fallbackEpisode ctx o pool] false

/-- The candidate pool of forced mode (main.py 268-284). -/
def forcedPool (o : Oracles) (st : PState) (items : List SourceItem) : List NormItem :=
  let new_items := prepareNewItems o st.processed items
  if new_items.isEmpty then enrichAll o items else new_items

/-- forced_compilation / newsletter mode (main.py 265-615 plus the
common tail). -/
def runForcedMode (ctx : RunCtx) (o : Oracles) (st : PState)
    (items : List SourceItem) : RunOut :=
  let new_items := prepareNewItems o st.processed items
  let base_pool := forcedPool o st items
  match pickLatest o (issueCandidates base_pool) with
  | some iss => runForcedIssue ctx o st new_items iss
  | none => runForcedFallback ctx o st new_items base_pool

/-! ### separate mode (main.py 161-263) -/

/-- One iteration of the separate loop (main.py 162-199 up to the
failure point): the episode values are computed, then the transcript
slug interpolates the name title, which is bound nowhere in run(), and
Python raises NameError (main.py 194). -/
def separateItemStep (ctx : RunCtx) (o : Oracles) (it : NormItem) :
    Except String Episode :=
  let orig_title := it.item.title
  let author := it.item.author
  let link := it.item.link
  let pub_dt := parse_datetime o it.item.published
  let title_date := extract_date_from_title o orig_title
  let effective_date := title_date.getD pub_dt.date
  let episode_title := ctx.feedName ++ ": " ++ effective_date.iso ++ " — " ++ orig_title
  let text := o.rewrite (o.llmClean
    (if author ≠ "" then orig_title ++ ". By " ++ author ++ ". " ++ it.clean_text
     else orig_title ++ ". " ++ it.clean_text))
  let _ := (episode_title, link, text)
  .error "NameError: name title is not defined"

/-- separate mode (main.py 151-263 plus the common tail); the per-item
loop raises on its first iteration. -/
def runSeparateMode (ctx : RunCtx) (o : Oracles) (st : PState)
    (items : List SourceItem) : Except String RunOut :=
  let new_items := prepareNewItems o st.processed items
  if new_items.isEmpty then
    .ok { created := [], forceRewrite := false, noop := true, state := st }
  else do
    let eps ← new_items.mapM (separateItemStep ctx o)
    pure (runTail st st.last_issue st.episodes new_items eps false)

/-! ### compilation mode (main.py 617-753) -/

/-- The today filter of compilation mode (main.py 619). -/
def todaysOf (o : Oracles) (new_items : List NormItem) : List NormItem :=
  new_items.filter fun it => (parse_datetime o it.item.published).date = o.now.date

/-- compilation mode (main.py 151 and 617-753 plus the common tail).
The duplicate-check loop of main.py 643-666 compares against
today_hash, a name bound only in the forced fallback branch; inside the
loop the NameError is swallowed by the per-episode try/except, so
do_generate stays true and no refresh happens, and the episode id
f-string of main.py 742 then raises NameError outside any handler. -/
def runCompilationMode (ctx : RunCtx) (o : Oracles) (st : PState)
    (items : List SourceItem) : Except String RunOut :=
  let new_items := prepareNewItems o st.processed items
  if new_items.isEmpty then
    .ok { created := [], forceRewrite := false, noop := true, state := st }
  else
    let todays := todaysOf o new_items
    if todays.isEmpty then
      -- created_episodes stays empty and force_rewrite false: main.py 755
      -- returns 0 before any state is touched
      .ok { created := [], forceRewrite := false, noop := true, state := st }
    else
      let text := o.rewrite (o.llmClean ("\n\n".intercalate (poolParts ctx todays)))
      let episode_title := ctx.feedName ++ ": " ++ o.now.date.iso
      let link := ((todays.head?).map (·.item.link)).getD ctx.siteLink
      let pub_dt : PyDateTime := ⟨o.now.date, 9 * 3600⟩
      let ttsRes := if ctx.ttsEnabled then some (o.tts text) else none
      let _ := (episode_title, link, pub_dt, ttsRes)
      .error "NameError: name today_hash is not defined"

end Main

/-- C9: after a run that created at least one episode, the merged
episode list is sorted by pub_date descending and holds at most 200
entries: its length is the minimum of 200 and the candidate count, and
the episodes left out are all no more recent than every kept one — so
a 250-candidate pool persists exactly the 200 most recent. -/
theorem claim_C9_episode_cap (old new : List Main.Episode) (h : new ≠ []) :
    List.Sorted Main.descRel (Main.mergeEpisodes old new) ∧
    (Main.mergeEpisodes old new).length = min 200 (old.length + new.length) ∧
    ∃ dropped : List Main.Episode,
      (Main.mergeEpisodes old new ++ dropped).Perm (old ++ new) ∧
      ∀ x ∈ Main.mergeEpisodes old new, ∀ y ∈ dropped,
        y.pub_date.key ≤ x.pub_date.key := by
  have hne : ¬(new.isEmpty = true) := by
    intro hc
    apply h
    cases new with
    | nil => rfl
    | cons a t => simp at hc
  have hmerge : Main.mergeEpisodes old new =
      (List.insertionSort Main.descRel (old ++ new)).take 200 := by
    unfold Main.mergeEpisodes
    rw [if_neg hne]
  have hsorted : List.Sorted Main.descRel (List.insertionSort Main.descRel (old ++ new)) :=
    List.sorted_insertionSort Main.descRel (old ++ new)
  have hperm : (List.insertionSort Main.descRel (old ++ new)).Perm (old ++ new) :=
    List.perm_insertionSort Main.descRel (old ++ new)
  refine ⟨?_, ?_, ?_⟩
  · rw [hmerge]
    exact List.Pairwise.sublist (List.take_sublist 200 _) hsorted
  · rw [hmerge, List.length_take, hperm.length_eq, List.length_append]
  · refine ⟨(List.insertionSort Main.descRel (old ++ new)).drop 200, ?_, ?_⟩
    · rw [hmerge, List.take_append_drop]
      exact hperm
    · intro x hx y hy
      rw [hmerge] at hx
      have hp : List.Pairwise Main.descRel
          ((List.insertionSort Main.descRel (old ++ new)).take 200 ++
            (List.insertionSort Main.descRel (old ++ new)).drop 200) := by
        rw [List.take_append_drop]
        exact hsorted
      exact (List.pairwise_append.mp hp).2.2 x hx y hy

/-- A concrete episode used by the witnesses. -/
def epc : Main.Episode :=
  { id := "e", title := "t", link := "l", pub_date := ⟨⟨2025, 1, 1⟩, 0⟩,
    description_html := "", audio_url := none, audio_bytes := 0,
    components := [], transcript_url := none, content_hash := none }

/-- Witness for C9: merging one created episode into an empty list. -/
theorem claim_C9_witness :
    ([epc] : List Main.Episode) ≠ [] ∧
    (List.Sorted Main.descRel (Main.mergeEpisodes [] [epc]) ∧
      (Main.mergeEpisodes [] [epc]).length =
        min 200 (([] : List Main.Episode).length + [epc].length) ∧
      ∃ dropped : List Main.Episode,
        (Main.mergeEpisodes [] [epc] ++ dropped).Perm ([] ++ [epc]) ∧
        ∀ x ∈ Main.mergeEpisodes [] [epc], ∀ y ∈ dropped,
          y.pub_date.key ≤ x.pub_date.key) :=
  ⟨by simp, claim_C9_episode_cap [] [epc] (by simp)⟩

/-- A concrete configuration for the failing-input evaluations. -/
def ctxc : Main.RunCtx :=
  { feedName := "Feed", siteLink := "https://site", siteAuthor := "Author",
    audioDir := "audio", ttsEnabled := true }

/-- Concrete oracles for the failing-input evaluations: dateutil
parses every published string to 2025-10-12, matching the clock. -/
def oc : Main.Oracles :=
  { parseDT := fun _ => some ⟨⟨2025, 10, 12⟩, 100⟩,
    fuzzyDT := fun _ => none,
    now := ⟨⟨2025, 10, 12⟩, 50⟩,
    clean := fun s => (s, "<p>" ++ s ++ "</p>"),
    sha := fun s => "H" ++ s,
    llmClean := id, rewrite := id,
    tts := fun _ => .ok 3 }

/-- A concrete unprocessed item for the failing-input evaluations. -/
def itemc : Main.SourceItem :=
  { guid := "guid1", link := "https://x", title := "Title", author := "Au",
    published := "2025-10-12", content_html := "content", content_source := "rss" }

/-- C2: separate mode cannot produce episodes — for every run with at
least one new item, the per-item loop reads the unbound name title
while building the transcript slug (main.py 194) and run() aborts with
a NameError; shown generally and on a concrete failing input. -/
theorem claim_C2_separate_mode_name_error :
    (∀ (ctx : Main.RunCtx) (o : Main.Oracles) (st : Main.PState)
        (items : List Main.SourceItem),
      Main.prepareNewItems o st.processed items ≠ [] →
      Main.runSeparateMode ctx o st items =
        .error "NameError: name title is not defined") ∧
    Main.runSeparateMode ctxc oc ⟨[], [], none⟩ [itemc] =
      .error "NameError: name title is not defined" := by
  constructor
  · intro ctx o st items hne
    unfold Main.runSeparateMode
    cases hni : Main.prepareNewItems o st.processed items with
    | nil => exact absurd hni hne
    | cons it rest => rfl
  · rfl

/-- C3: compilation mode groups the new items published on the runtime
UTC date, but whenever that group is nonempty the episode id f-string
reads the unbound name today_hash (main.py 742) and run() aborts with a
NameError; when no new item matches today the run is a no-op that
leaves the state untouched.  Shown generally and on a concrete failing
input. -/
theorem claim_C3_compilation_today_hash_name_error :
    (∀ (ctx : Main.RunCtx) (o : Main.Oracles) (st : Main.PState)
        (items : List Main.SourceItem),
      Main.todaysOf o (Main.prepareNewItems o st.processed items) ≠ [] →
      Main.runCompilationMode ctx o st items =
        .error "NameError: name today_hash is not defined") ∧
    (∀ (ctx : Main.RunCtx) (o : Main.Oracles) (st : Main.PState)
        (items : List Main.SourceItem),
      Main.todaysOf o (Main.prepareNewItems o st.processed items) = [] →
      Main.runCompilationMode ctx o st items =
        .ok { created := [], forceRewrite := false, noop := true, state := st }) ∧
    Main.runCompilationMode ctxc oc ⟨[], [], none⟩ [itemc] =
      .error "NameError: name today_hash is not defined" := by
  refine ⟨?_, ?_, rfl⟩
  · intro ctx o st items htd
    have hni : Main.prepareNewItems o st.processed items ≠ [] := by
      intro hc
      apply htd
      rw [hc]
      rfl
    unfold Main.runCompilationMode
    cases hni2 : Main.prepareNewItems o st.processed items with
    | nil => exact absurd hni2 hni
    | cons it rest =>
      rw [hni2] at htd
      cases htd2 : Main.todaysOf o (it :: rest) with
      | nil => exact absurd htd2 htd
      | cons t ts =>
        simp only [List.isEmpty_cons, Bool.false_eq_true, if_false]
        rw [htd2]
        rfl
  · intro ctx o st items htd
    unfold Main.runCompilationMode
    cases hni : Main.prepareNewItems o st.processed items with
    | nil => rfl
    | cons it rest =>
      rw [hni] at htd
      simp only [List.isEmpty_cons, Bool.false_eq_true, if_false]
      rw [htd]
      rfl

namespace Main

/-- With an empty processed map, normalization keeps every item. -/
lemma prepareNewItems_nil_processed (o : Oracles) (items : List SourceItem) :
    prepareNewItems o [] items = items.map (prepNorm o) := by
  unfold prepareNewItems
  simp only [List.not_mem_nil, if_false]
  exact congrFun (List.filterMap_eq_map (prepNorm o)) items

/-- The enriched fallback pool differs from the fresh normalization
only by its missing key. -/
def eraseKey (n : NormItem) : NormItem := { n with key := "" }

lemma enrichAll_eq (o : Oracles) (items : List SourceItem) :
    enrichAll o items = (items.map (prepNorm o)).map eraseKey := by
  rw [List.map_map]
  rfl

lemma eraseKey_item (n : NormItem) : (eraseKey n).item = n.item := rfl

lemma pickStep_none (o : Oracles) (it : NormItem) : pickStep o none it = some it := rfl

lemma pickStep_some (o : Oracles) (b it : NormItem) :
    pickStep o (some b) it =
      if (parse_datetime o b.item.published).key <
          (parse_datetime o it.item.published).key then some it else some b := rfl

lemma pickStep_eraseKey (o : Oracles) (acc : Option NormItem) (a : NormItem) :
    pickStep o (acc.map eraseKey) (eraseKey a) = (pickStep o acc a).map eraseKey := by
  cases acc with
  | none => rfl
  | some b =>
    show pickStep o (some (eraseKey b)) (eraseKey a) = _
    rw [pickStep_some, pickStep_some, eraseKey_item, eraseKey_item]
    by_cases hc : (parse_datetime o b.item.published).key <
        (parse_datetime o a.item.published).key
    · rw [if_pos hc, if_pos hc]
      rfl
    · rw [if_neg hc, if_neg hc]
      rfl

lemma pickLatest_fold_eraseKey (o : Oracles) :
    ∀ (l : List NormItem) (acc : Option NormItem),
      List.foldl (pickStep o) (acc.map eraseKey) (l.map eraseKey) =
        (List.foldl (pickStep o) acc l).map eraseKey := by
  intro l
  induction l with
  | nil => intro acc; rfl
  | cons a t ih =>
    intro acc
    rw [List.map_cons, List.foldl_cons, List.foldl_cons, pickStep_eraseKey]
    exact ih _

lemma pickLatest_map_eraseKey (o : Oracles) (l : List NormItem) :
    pickLatest o (l.map eraseKey) = (pickLatest o l).map eraseKey := by
  unfold pickLatest
  exact pickLatest_fold_eraseKey o l none

lemma issueCandidates_map_eraseKey (l : List NormItem) :
    issueCandidates (l.map eraseKey) = (issueCandidates l).map eraseKey := by
  unfold issueCandidates
  rw [List.filter_map]
  rfl

lemma prepare_all_processed (o : Oracles) (processed : List String)
    (items : List SourceItem)
    (h : ∀ it ∈ items, (prepNorm o it).key ∈ processed) :
    prepareNewItems o processed items = [] := by
  induction items with
  | nil => rfl
  | cons a t ih =>
    unfold prepareNewItems at ih ⊢
    rw [List.filterMap_cons]
    have ha := h a (List.mem_cons_self _ _)
    simp only [ha, if_true]
    exact ih fun it hit => h it (List.mem_cons_of_mem _ hit)

lemma pickLatest_fold_mem (o : Oracles) :
    ∀ (l : List NormItem) (acc x : NormItem),
      List.foldl (pickStep o) (some acc) l = some x → x = acc ∨ x ∈ l := by
  intro l
  induction l with
  | nil =>
    intro acc x h
    rw [List.foldl_nil] at h
    rw [Option.some_inj] at h
    exact Or.inl h.symm
  | cons a t ih =>
    intro acc x h
    rw [List.foldl_cons, pickStep_some] at h
    by_cases hc : (parse_datetime o acc.item.published).key <
        (parse_datetime o a.item.published).key
    · rw [if_pos hc] at h
      rcases ih a x h with h1 | h2
      · exact Or.inr (h1 ▸ List.mem_cons_self _ _)
      · exact Or.inr (List.mem_cons_of_mem _ h2)
    · rw [if_neg hc] at h
      rcases ih acc x h with h1 | h2
      · exact Or.inl h1
      · exact Or.inr (List.mem_cons_of_mem _ h2)

lemma pickLatest_fold_some (o : Oracles) :
    ∀ (l : List NormItem) (acc : NormItem), ∃ x,
      List.foldl (pickStep o) (some acc) l = some x := by
  intro l
  induction l with
  | nil => intro acc; exact ⟨acc, rfl⟩
  | cons a t ih =>
    intro acc
    rw [List.foldl_cons, pickStep_some]
    by_cases hc : (parse_datetime o acc.item.published).key <
        (parse_datetime o a.item.published).key
    · rw [if_pos hc]; exact ih a
    · rw [if_neg hc]; exact ih acc

lemma pickLatest_nonempty (o : Oracles) (l : List NormItem) (h : l ≠ []) :
    ∃ x, pickLatest o l = some x ∧ x ∈ l := by
  cases l with
  | nil => exact absurd rfl h
  | cons a t =>
    unfold pickLatest
    rw [List.foldl_cons]
    obtain ⟨x, hx⟩ := pickLatest_fold_some o t a
    rw [pickStep_none]
    refine ⟨x, hx, ?_⟩
    rcases pickLatest_fold_mem o t a x hx with h1 | h2
    · exact h1 ▸ List.mem_cons_self _ _
    · exact List.mem_cons_of_mem _ h2

lemma build_public_url_ne (site rel : String) :
    build_public_url site rel ≠ "" := by
  unfold build_public_url
  intro h
  have hlen := congrArg String.length h
  simp only [String.length_append] at hlen
  have h1 : ("/" : String).length = 1 := rfl
  have h0 : ("" : String).length = 0 := rfl
  omega

lemma runForcedIssue_skip (ctx : RunCtx) (o : Oracles) (st : PState)
    (new_items : List NormItem) (iss : NormItem) (dep : Episode)
    (hdup : st.episodes.find? (issueDupPred o iss) = some dep)
    (haud : audioTruthy dep = true) :
    runForcedIssue ctx o st new_items iss =
      runTail st st.last_issue
        (if iss.desc_html ≠ "" then
          replaceFirstDesc (issueDupPred o iss) iss.desc_html st.episodes
        else st.episodes) new_items [] true := by
  unfold runForcedIssue
  rw [hdup]
  simp [haud]

lemma runForcedIssue_gen (ctx : RunCtx) (o : Oracles) (st : PState)
    (new_items : List NormItem) (iss : NormItem)
    (hskip : (match st.episodes.find? (issueDupPred o iss) with
      | some dep => audioTruthy dep
      | none => false) = false) :
    runForcedIssue ctx o st new_items iss =
      runTail st (some (iss.item.published, iss.item.guid))
        (st.episodes.filter fun ep =>
          ¬(ep.pub_date.date = (issueEpisode ctx o iss).pub_date.date))
        new_items [issueEpisode ctx o iss] false := by
  unfold runForcedIssue
  show (if (match st.episodes.find? (issueDupPred o iss) with
      | some dep => audioTruthy dep
      | none => false) = true then _ else _) = _
  rw [hskip]
  simp only [Bool.false_eq_true, if_false]

/-- Zeta-free unfolding of forcedPool. -/
lemma forcedPool_eq (o : Oracles) (st : PState) (items : List SourceItem) :
    forcedPool o st items =
      if (prepareNewItems o st.processed items).isEmpty then enrichAll o items
      else prepareNewItems o st.processed items := rfl

/-- Zeta-free unfolding of runForcedMode. -/
lemma runForcedMode_eq (ctx : RunCtx) (o : Oracles) (st : PState)
    (items : List SourceItem) :
    runForcedMode ctx o st items =
      match pickLatest o (issueCandidates (forcedPool o st items)) with
      | some iss => runForcedIssue ctx o st (prepareNewItems o st.processed items) iss
      | none => runForcedFallback ctx o st (prepareNewItems o st.processed items)
          (forcedPool o st items) := rfl

/-- Zeta-free unfolding of runForcedFallback. -/
lemma runForcedFallback_eq (ctx : RunCtx) (o : Oracles) (st : PState)
    (new_items pool : List NormItem) :
    runForcedFallback ctx o st new_items pool =
      if pool.isEmpty then
        { created := [], forceRewrite := false, noop := true, state := st }
      else match st.episodes.find? (fallbackDupPred o pool) with
        | some _ =>
          runTail st st.last_issue
            (if poolDesc pool ≠ "" then
              replaceFirstDesc (fallbackDupPred o pool) (poolDesc pool) st.episodes
            else st.episodes) new_items [] true
        | none =>
          runTail st st.last_issue st.episodes new_items
            [fallbackEpisode ctx o pool] false := rfl

/-- The common tail on a singleton creation. -/
lemma runTail_gen (st : PState) (li : Option (String × String))
    (eps : List Episode) (new : List NormItem) (ep : Episode) :
    runTail st li eps new [ep] false =
      { created := [ep], forceRewrite := false, noop := false,
        state := { processed := st.processed ++ new.map (·.key),
                   episodes := mergeEpisodes eps [ep],
                   last_issue := li } } := rfl

/-- The common tail on an empty creation with the force flag raised. -/
lemma runTail_skip (st : PState) (li : Option (String × String))
    (eps : List Episode) (new : List NormItem) :
    runTail st li eps new [] true =
      { created := [], forceRewrite := true, noop := false,
        state := { processed := st.processed ++ new.map (·.key),
                   episodes := eps,
                   last_issue := li } } := rfl

/-- The stored hash of the issue episode is the pre-rewrite hash. -/
lemma issueEpisode_content_hash (ctx : RunCtx) (o : Oracles) (iss : NormItem) :
    (issueEpisode ctx o iss).content_hash = some (issueHash o iss) := rfl

/-- With synthesis enabled the issue episode is built from the TTS
outcome on the narration text. -/
lemma issueEpisode_tts_on (ctx : RunCtx) (o : Oracles) (iss : NormItem)
    (hctx : ctx.ttsEnabled = true) :
    issueEpisode ctx o iss =
      issueEpisodeCore ctx o iss (some (o.tts (issueText ctx o iss))) := by
  unfold issueEpisode
  rw [hctx]
  rfl

/-- The audio-file path of the issue episode. -/
def issueAudioPath (ctx : RunCtx) (o : Oracles) (iss : NormItem) : String :=
  let orig_title := if iss.item.title ≠ "" then iss.item.title
    else ctx.feedName ++ " — Latest"
  let effective_date := (extract_date_from_title o orig_title).getD
    (parse_datetime o iss.item.published).date
  ctx.audioDir ++ "/" ++ toString effective_date.y ++ "/" ++ pad2 effective_date.m ++
    "/" ++ effective_date.iso ++ ".mp3"

lemma issueEpisodeCore_audio_url (ctx : RunCtx) (o : Oracles) (iss : NormItem)
    (n : Nat) :
    (issueEpisodeCore ctx o iss (some (Except.ok n))).audio_url =
      some (build_public_url ctx.siteLink (issueAudioPath ctx o iss)) := rfl

/-- A successful synthesis yields a truthy audio URL. -/
lemma issueEpisodeCore_audioTruthy (ctx : RunCtx) (o : Oracles) (iss : NormItem)
    (n : Nat) :
    audioTruthy (issueEpisodeCore ctx o iss (some (Except.ok n))) = true := by
  unfold audioTruthy
  rw [issueEpisodeCore_audio_url]
  exact decide_eq_true (build_public_url_ne ctx.siteLink (issueAudioPath ctx o iss))

/-- A truthy stored content_hash is returned as-is. -/
lemma episode_content_hash_some {ep : Episode} {h : String}
    (hch : ep.content_hash = some h) (hne : h ≠ "") :
    episode_content_hash ep = some h := by
  unfold episode_content_hash
  rw [hch]
  show (if h ≠ "" then some h else idSuffix ep) = some h
  rw [if_pos hne]

/-- An episode carrying the candidate hash matches the duplicate test. -/
lemma issueDupPred_self (o : Oracles) (iss : NormItem) (ep : Episode)
    (hch : episode_content_hash ep = some (issueHash o iss)) :
    issueDupPred o iss ep = true := by
  unfold issueDupPred
  rw [hch]
  exact beq_self_eq_true _

/-- The description refresh never changes episode identifiers. -/
lemma replaceFirstDesc_map_id (p : Episode → Bool) (d : String) :
    ∀ l : List Episode,
      (replaceFirstDesc p d l).map Episode.id = l.map Episode.id := by
  intro l
  induction l with
  | nil => rfl
  | cons ep rest ih =>
    unfold replaceFirstDesc
    by_cases hp : p ep = true
    · rw [if_pos hp]
      rfl
    · rw [if_neg hp, List.map_cons, List.map_cons, ih]

/-- The rewrite-independent projections of a run outcome: the created
episodes' content hashes and ids, the two flags, and the processed-key
list. -/
def runKeys (r : RunOut) :
    List (Option String) × List String × Bool × Bool × List String :=
  (r.created.map Episode.content_hash, r.created.map Episode.id,
   r.forceRewrite, r.noop, r.state.processed)

lemma runKeys_runTail_gen (st : PState) (li li' : Option (String × String))
    (eps eps' : List Episode) (new : List NormItem) (ep ep' : Episode)
    (hch : ep'.content_hash = ep.content_hash) (hid : ep'.id = ep.id) :
    runKeys (runTail st li' eps' new [ep'] false) =
      runKeys (runTail st li eps new [ep] false) := by
  rw [runTail_gen, runTail_gen]
  show ([ep'.content_hash], [ep'.id], false, false,
      st.processed ++ new.map (·.key)) =
    ([ep.content_hash], [ep.id], false, false, st.processed ++ new.map (·.key))
  rw [hch, hid]

/-- A pair of oracle sets that differ only in the LLM cleanup and
rewrite transforms. -/
def rwOracles (o : Oracles) (g r : String → String) : Oracles :=
  { o with llmClean := g, rewrite := r }

/-- The issue branch yields the same keys, hashes, flags and processed
list whatever the rewrite transforms do. -/
lemma runKeys_forcedIssue (ctx : RunCtx) (o : Oracles) (g r : String → String)
    (st : PState) (new : List NormItem) (iss : NormItem) :
    runKeys (runForcedIssue ctx (rwOracles o g r) st new iss) =
      runKeys (runForcedIssue ctx o st new iss) := by
  cases hfind : List.find? (issueDupPred o iss) st.episodes with
  | some dep =>
    have hfind2 : List.find? (issueDupPred (rwOracles o g r) iss) st.episodes =
        some dep := hfind
    cases haud : audioTruthy dep with
    | true =>
      rw [runForcedIssue_skip ctx (rwOracles o g r) st new iss dep hfind2 haud,
        runForcedIssue_skip ctx o st new iss dep hfind haud]
      rfl
    | false =>
      have hskip1 : (match List.find? (issueDupPred o iss) st.episodes with
          | some dep => audioTruthy dep
          | none => false) = false := by
        rw [hfind]
        exact haud
      have hskip2 : (match List.find? (issueDupPred (rwOracles o g r) iss)
            st.episodes with
          | some dep => audioTruthy dep
          | none => false) = false := hskip1
      rw [runForcedIssue_gen ctx (rwOracles o g r) st new iss hskip2,
        runForcedIssue_gen ctx o st new iss hskip1]
      exact runKeys_runTail_gen st _ _ _ _ new _ _ rfl rfl
  | none =>
    have hskip1 : (match List.find? (issueDupPred o iss) st.episodes with
        | some dep => audioTruthy dep
        | none => false) = false := by
      rw [hfind]
    have hskip2 : (match List.find? (issueDupPred (rwOracles o g r) iss)
          st.episodes with
        | some dep => audioTruthy dep
        | none => false) = false := hskip1
    rw [runForcedIssue_gen ctx (rwOracles o g r) st new iss hskip2,
      runForcedIssue_gen ctx o st new iss hskip1]
    exact runKeys_runTail_gen st _ _ _ _ new _ _ rfl rfl

/-- The fallback branch yields the same keys, hashes, flags and
processed list whatever the rewrite transforms do. -/
lemma runKeys_forcedFallback (ctx : RunCtx) (o : Oracles) (g r : String → String)
    (st : PState) (new pool : List NormItem) :
    runKeys (runForcedFallback ctx (rwOracles o g r) st new pool) =
      runKeys (runForcedFallback ctx o st new pool) := by
  rw [runForcedFallback_eq, runForcedFallback_eq]
  by_cases hp : pool.isEmpty = true
  · rw [if_pos hp, if_pos hp]
  · rw [if_neg hp, if_neg hp]
    have hd : List.find? (fallbackDupPred (rwOracles o g r) pool) st.episodes =
        List.find? (fallbackDupPred o pool) st.episodes := rfl
    rw [hd]
    cases hfind : List.find? (fallbackDupPred o pool) st.episodes with
    | some dep => rfl
    | none => exact runKeys_runTail_gen st _ _ _ _ new _ _ rfl rfl

end Main

/-- C1: in forced_compilation mode a candidate issue whose pre-rewrite
content hash matches a persisted episode that already carries audio
creates nothing: the run refreshes that episode description from the
new desc_html and raises the force flag (first conjunct, main.py
323-354).  Consequently two consecutive runs on the same fresh issue
items with working synthesis create exactly one episode in the first
run and none in the second, which only refreshes the description of
the stored episode, keeping its id and the processed keys (second
conjunct). -/
theorem claim_C1_forced_duplicate_suppression :
    (∀ (ctx : Main.RunCtx) (o : Main.Oracles) (st : Main.PState)
        (items : List Main.SourceItem) (iss : Main.NormItem) (dep : Main.Episode),
      Main.pickLatest o (Main.issueCandidates (Main.forcedPool o st items)) =
        some iss →
      st.episodes.find? (Main.issueDupPred o iss) = some dep →
      Main.audioTruthy dep = true →
      iss.desc_html ≠ "" →
      Main.runForcedMode ctx o st items =
        { created := [], forceRewrite := true, noop := false,
          state := { processed := st.processed ++
                       (Main.prepareNewItems o st.processed items).map (·.key),
                     episodes := Main.replaceFirstDesc (Main.issueDupPred o iss)
                       iss.desc_html st.episodes,
                     last_issue := st.last_issue } }) ∧
    (∀ (ctx : Main.RunCtx) (o : Main.Oracles) (li : Option (String × String))
        (items : List Main.SourceItem) (r1 r2 : Main.RunOut),
      items ≠ [] →
      (∀ it ∈ items, it.content_source = "newsletter_issue") →
      ctx.ttsEnabled = true →
      (∀ s, ∃ n, o.tts s = Except.ok n) →
      (∀ s, o.sha s ≠ "") →
      r1 = Main.runForcedMode ctx o ⟨[], [], li⟩ items →
      r2 = Main.runForcedMode ctx o r1.state items →
      r1.created.length = 1 ∧
      r2.created = [] ∧
      r2.forceRewrite = true ∧
      r2.noop = false ∧
      r2.state.episodes.map Main.Episode.id =
        r1.state.episodes.map Main.Episode.id ∧
      r2.state.processed = r1.state.processed ∧
      (r2.state.episodes = r1.state.episodes ∨
        ∃ p d, r2.state.episodes = Main.replaceFirstDesc p d r1.state.episodes)) := by
  constructor
  · intro ctx o st items iss dep hpick hdup haud hdesc
    rw [Main.runForcedMode_eq, hpick]
    show Main.runForcedIssue ctx o st
      (Main.prepareNewItems o st.processed items) iss = _
    rw [Main.runForcedIssue_skip ctx o st
        (Main.prepareNewItems o st.processed items) iss dep hdup haud,
      if_pos hdesc, Main.runTail_skip]
  · intro ctx o li items r1 r2 hne hsrc hctx htts hsha hr1 hr2
    have hmapne : items.map (Main.prepNorm o) ≠ [] := by
      cases items with
      | nil => exact absurd rfl hne
      | cons a t => exact List.cons_ne_nil _ _
    have hP : Main.prepareNewItems o
        (⟨[], [], li⟩ : Main.PState).processed items =
        items.map (Main.prepNorm o) :=
      Main.prepareNewItems_nil_processed o items
    have hPe : (items.map (Main.prepNorm o)).isEmpty = false := by
      cases items with
      | nil => exact absurd rfl hne
      | cons a t => rfl
    have hpool1 : Main.forcedPool o ⟨[], [], li⟩ items =
        items.map (Main.prepNorm o) := by
      rw [Main.forcedPool_eq, hP, hPe]
      rfl
    have hcand : Main.issueCandidates (items.map (Main.prepNorm o)) =
        items.map (Main.prepNorm o) := by
      apply List.filter_eq_self.mpr
      intro a ha
      obtain ⟨it, hit, hpe⟩ := List.mem_map.mp ha
      subst hpe
      exact decide_eq_true (Or.inl (hsrc it hit))
    obtain ⟨iss, hps, hmem⟩ :=
      Main.pickLatest_nonempty o (items.map (Main.prepNorm o)) hmapne
    have hrun1 : Main.runForcedMode ctx o ⟨[], [], li⟩ items =
        Main.runForcedIssue ctx o ⟨[], [], li⟩
          (items.map (Main.prepNorm o)) iss := by
      rw [Main.runForcedMode_eq, hpool1, hcand, hps, hP]
    have hiss1 := Main.runForcedIssue_gen ctx o ⟨[], [], li⟩
      (items.map (Main.prepNorm o)) iss rfl
    have hr1v : r1 =
        { created := [Main.issueEpisode ctx o iss],
          forceRewrite := false, noop := false,
          state := { processed := (items.map (Main.prepNorm o)).map (·.key),
                     episodes := [Main.issueEpisode ctx o iss],
                     last_issue := some (iss.item.published, iss.item.guid) } } := by
      rw [hr1, hrun1, hiss1, Main.runTail_gen]
      rfl
    have hP2 : Main.prepareNewItems o
        ((items.map (Main.prepNorm o)).map (·.key)) items = [] := by
      apply Main.prepare_all_processed
      intro it hit
      exact List.mem_map_of_mem _ (List.mem_map_of_mem _ hit)
    have hr2s : r2 = Main.runForcedMode ctx o
        (⟨(items.map (Main.prepNorm o)).map (·.key),
          [Main.issueEpisode ctx o iss],
          some (iss.item.published, iss.item.guid)⟩ : Main.PState) items := by
      rw [hr2, hr1v]
    have hPS : Main.prepareNewItems o
        ((⟨(items.map (Main.prepNorm o)).map (·.key),
          [Main.issueEpisode ctx o iss],
          some (iss.item.published, iss.item.guid)⟩ : Main.PState)).processed
        items = [] := hP2
    have hpool2 : Main.forcedPool o
        (⟨(items.map (Main.prepNorm o)).map (·.key),
          [Main.issueEpisode ctx o iss],
          some (iss.item.published, iss.item.guid)⟩ : Main.PState) items =
        (items.map (Main.prepNorm o)).map Main.eraseKey := by
      rw [Main.forcedPool_eq, hPS]
      exact Main.enrichAll_eq o items
    have hpick2 : Main.pickLatest o (Main.issueCandidates
        (Main.forcedPool o
          (⟨(items.map (Main.prepNorm o)).map (·.key),
            [Main.issueEpisode ctx o iss],
            some (iss.item.published, iss.item.guid)⟩ : Main.PState) items)) =
        some (Main.eraseKey iss) := by
      rw [hpool2, Main.issueCandidates_map_eraseKey, hcand,
        Main.pickLatest_map_eraseKey, hps]
      rfl
    have hrun2 : Main.runForcedMode ctx o
        (⟨(items.map (Main.prepNorm o)).map (·.key),
          [Main.issueEpisode ctx o iss],
          some (iss.item.published, iss.item.guid)⟩ : Main.PState) items =
        Main.runForcedIssue ctx o
          (⟨(items.map (Main.prepNorm o)).map (·.key),
            [Main.issueEpisode ctx o iss],
            some (iss.item.published, iss.item.guid)⟩ : Main.PState) []
          (Main.eraseKey iss) := by
      rw [Main.runForcedMode_eq, hpick2, hPS]
    have hch1 : Main.episode_content_hash (Main.issueEpisode ctx o iss) =
        some (Main.issueHash o iss) :=
      Main.episode_content_hash_some (Main.issueEpisode_content_hash ctx o iss)
        (hsha _)
    have hpred : Main.issueDupPred o (Main.eraseKey iss)
        (Main.issueEpisode ctx o iss) = true := by
      show Main.issueDupPred o iss (Main.issueEpisode ctx o iss) = true
      exact Main.issueDupPred_self o iss _ hch1
    have hfind2 : List.find? (Main.issueDupPred o (Main.eraseKey iss))
        [Main.issueEpisode ctx o iss] = some (Main.issueEpisode ctx o iss) :=
      List.find?_cons_of_pos _ hpred
    have haud2 : Main.audioTruthy (Main.issueEpisode ctx o iss) = true := by
      obtain ⟨n, hn⟩ := htts (Main.issueText ctx o iss)
      rw [Main.issueEpisode_tts_on ctx o iss hctx, hn]
      exact Main.issueEpisodeCore_audioTruthy ctx o iss n
    have hiss2 := Main.runForcedIssue_skip ctx o
      (⟨(items.map (Main.prepNorm o)).map (·.key),
        [Main.issueEpisode ctx o iss],
        some (iss.item.published, iss.item.guid)⟩ : Main.PState) []
      (Main.eraseKey iss) (Main.issueEpisode ctx o iss) hfind2 haud2
    by_cases hdesc : (Main.eraseKey iss).desc_html ≠ ""
    · have hr2v : r2 =
          { created := [], forceRewrite := true, noop := false,
            state := { processed :=
                         ((items.map (Main.prepNorm o)).map (·.key)) ++ [],
                       episodes := Main.replaceFirstDesc
                         (Main.issueDupPred o (Main.eraseKey iss))
                         ((Main.eraseKey iss).desc_html)
                         [Main.issueEpisode ctx o iss],
                       last_issue := some (iss.item.published, iss.item.guid) } } := by
        rw [hr2s, hrun2, hiss2, if_pos hdesc, Main.runTail_skip]
        rfl
      refine ⟨?_, ?_, ?_, ?_, ?_, ?_, ?_⟩
      · rw [hr1v]
        rfl
      · rw [hr2v]
      · rw [hr2v]
      · rw [hr2v]
      · rw [hr2v, hr1v]
        exact Main.replaceFirstDesc_map_id _ _ _
      · rw [hr2v, hr1v]
        exact List.append_nil _
      · rw [hr2v, hr1v]
        exact Or.inr ⟨Main.issueDupPred o (Main.eraseKey iss),
          (Main.eraseKey iss).desc_html, rfl⟩
    · have hr2v : r2 =
          { created := [], forceRewrite := true, noop := false,
            state := { processed :=
                         ((items.map (Main.prepNorm o)).map (·.key)) ++ [],
                       episodes := [Main.issueEpisode ctx o iss],
                       last_issue := some (iss.item.published, iss.item.guid) } } := by
        rw [hr2s, hrun2, hiss2, if_neg hdesc, Main.runTail_skip]
        rfl
      refine ⟨?_, ?_, ?_, ?_, ?_, ?_, ?_⟩
      · rw [hr1v]
        rfl
      · rw [hr2v]
      · rw [hr2v]
      · rw [hr2v]
      · rw [hr2v, hr1v]
      · rw [hr2v, hr1v]
        exact List.append_nil _
      · rw [hr2v, hr1v]
        exact Or.inl rfl

/-- C8: dedup keys and content hashes are computed from the cleaned
text before the LLM cleanup and rewrite steps; two runs whose oracle
sets differ only in those two transforms record the same keys, the
same per-episode content hashes and ids, the same flags, and reach the
same duplicate decisions. -/
theorem claim_C8_hash_prerewrite_stability :
    ∀ (ctx : Main.RunCtx) (o : Main.Oracles) (g r : String → String)
      (st : Main.PState) (items : List Main.SourceItem),
      Main.prepareNewItems (Main.rwOracles o g r) st.processed items =
        Main.prepareNewItems o st.processed items ∧
      (∀ iss, Main.issueHash (Main.rwOracles o g r) iss = Main.issueHash o iss) ∧
      (∀ pool, Main.compHash (Main.rwOracles o g r) pool =
        Main.compHash o pool) ∧
      (∀ iss ep, Main.issueDupPred (Main.rwOracles o g r) iss ep =
        Main.issueDupPred o iss ep) ∧
      (∀ pool ep, Main.fallbackDupPred (Main.rwOracles o g r) pool ep =
        Main.fallbackDupPred o pool ep) ∧
      Main.runKeys (Main.runForcedMode ctx (Main.rwOracles o g r) st items) =
        Main.runKeys (Main.runForcedMode ctx o st items) := by
  intro ctx o g r st items
  refine ⟨rfl, fun iss => rfl, fun pool => rfl, fun iss ep => rfl,
    fun pool ep => rfl, ?_⟩
  rw [Main.runForcedMode_eq, Main.runForcedMode_eq]
  have h1 : Main.prepareNewItems (Main.rwOracles o g r) st.processed items =
      Main.prepareNewItems o st.processed items := rfl
  have h2 : Main.forcedPool (Main.rwOracles o g r) st items =
      Main.forcedPool o st items := rfl
  rw [h1, h2]
  have h3 : Main.pickLatest (Main.rwOracles o g r)
      (Main.issueCandidates (Main.forcedPool o st items)) =
      Main.pickLatest o (Main.issueCandidates (Main.forcedPool o st items)) := rfl
  rw [h3]
  cases hp : Main.pickLatest o
      (Main.issueCandidates (Main.forcedPool o st items)) with
  | some iss => exact Main.runKeys_forcedIssue ctx o g r st _ iss
  | none => exact Main.runKeys_forcedFallback ctx o g r st _ _

end N2P